/-
Verification of the code-ally conversational orchestration core.

This file gives a shallow embedding, in Lean 4, of the tool-call
normalization and dispatch pipeline, the redundancy filter, the token
budget tracker, the conversation compaction routine and the
request-in-progress flag handling of the `code_ally` repository
(src/code_ally/agent/agent.py, src/code_ally/agent/tool_manager.py and
the legacy monolith src/code_ally/agent.py), and proves or refutes the
specification claims about them.

Conventions of the embedding:
* Python values that can appear inside a tool-call payload are modelled
  by `PyVal`; Python dicts are association lists in insertion order
  (Python dicts preserve insertion order and have unique keys).
* Functions that can raise in Python are modelled with `Except String`;
  functions where Python catches every exception are total.
* `int(time.time())` is passed in explicitly as a `now : Int` parameter.
* Floating-point arithmetic in the token estimator only ever divides
  character counts by 4.0 and adds the results; these quantities are
  dyadic rationals that IEEE-754 doubles represent exactly for every
  realistic conversation size, so the estimator is modelled over `ℚ`.
-/
import Mathlib

namespace CodeAlly

/-- A Python value as it can occur in a model-supplied tool call payload:
strings, ints, bools, `None`, lists, and dicts (association lists in
insertion order). -/
inductive PyVal where
  | str (s : String)
  | int (n : Int)
  | bool (b : Bool)
  | null
  | list (xs : List PyVal)
  | dict (d : List (String × PyVal))
  deriving Repr

/-- A Python dict: association list of string keys in insertion order. -/
abbrev PyDict := List (String × PyVal)

/-- Python `d.get k` for a dict: the value under the first occurrence of
key `k`, if any. -/
def dictGet (d : PyDict) (k : String) : Option PyVal :=
  (d.find? (fun kv => kv.1 = k)).map (·.2)

/-- Python `k in d` for a dict. -/
def dictHas (d : PyDict) (k : String) : Bool :=
  (dictGet d k).isSome

mutual

/-- Python `==` on payload values.  `bool` is a subclass of `int` in
Python, so `True == 1` and `False == 0`; strings compare to strings,
`None` only to itself, lists elementwise.  Dicts are compared entrywise
in insertion order; Python compares dicts as unordered mappings, which
coincides with this on dicts built in matching key order (the only dict
comparisons the orchestrator performs are between argument payloads that
went through the same construction path). -/
def pyEq : PyVal → PyVal → Bool
  | .str a, .str b => a = b
  | .int a, .int b => a = b
  | .bool a, .bool b => a = b
  | .bool a, .int b => (if a then (1 : Int) else 0) = b
  | .int a, .bool b => a = (if b then (1 : Int) else 0)
  | .null, .null => true
  | .list xs, .list ys => pyEqList xs ys
  | .dict xs, .dict ys => pyEqDict xs ys
  | _, _ => false

/-- Elementwise `==` on Python lists. -/
def pyEqList : List PyVal → List PyVal → Bool
  | [], [] => true
  | x :: xs, y :: ys => pyEq x y && pyEqList xs ys
  | _, _ => false

/-- Entrywise `==` on Python dicts (see `pyEq` on key order). -/
def pyEqDict : List (String × PyVal) → List (String × PyVal) → Bool
  | [], [] => true
  | (k₁, v₁) :: xs, (k₂, v₂) :: ys => k₁ = k₂ && pyEq v₁ v₂ && pyEqDict xs ys
  | _, _ => false

end

/-- Python truthiness of a `PyVal` (`bool(v)`). -/
def PyVal.truthy : PyVal → Bool
  | .str s => s ≠ ""
  | .int n => n ≠ 0
  | .bool b => b
  | .null => false
  | .list xs => !xs.isEmpty
  | .dict d => !d.isEmpty

/-- Insert an entry into a key-sorted association list, before the
first entry with a strictly greater key. -/
def insertByKey (p : String × PyVal) : PyDict → PyDict
  | [] => [p]
  | q :: rest => if q.1 ≤ p.1 then q :: insertByKey p rest else p :: q :: rest

/-- Python `sorted(arguments.items())`: the key/value pairs of a dict sorted by
key (insertion sort).  Python compares tuples lexicographically, but
dict keys are unique, so sorting by key alone is faithful, and any
correct sort produces the same list. -/
def sortedItems (d : PyDict) : PyDict :=
  d.foldr insertByKey []

/-! ### `json.loads`

A strict JSON parser modelling the Python standard library `json.loads`
on the fragment that matters for tool-call arguments: objects, arrays,
double-quoted strings (with the common escapes), integers, `true`,
`false`, `null`.  Single-quoted text and non-JSON text fail, exactly as
in Python.  Floating-point literals are outside the modelled fragment
(no claim involves them).  Recursion is fuelled; `jsonLoads` supplies
fuel larger than the input length, which every parse can consume. -/

/-- JSON whitespace (space, tab, linefeed, carriage return). -/
def isJsonWs (c : Char) : Bool :=
  c = ' ' || c = '\t' || c = '\n' || c = '\r'

/-- Drop leading JSON whitespace. -/
def skipWs : List Char → List Char
  | c :: cs => if isJsonWs c then skipWs cs else c :: cs
  | [] => []

/-- Parse the body of a JSON string literal, after the opening quote. -/
def parseStringBody : Nat → String → List Char → Option (String × List Char)
  | 0, _, _ => none
  | _ + 1, acc, '\"' :: cs => some (acc, cs)
  | fuel + 1, acc, '\\' :: e :: cs =>
    match e with
    | '\"' => parseStringBody fuel (acc.push '\"') cs
    | '\\' => parseStringBody fuel (acc.push '\\') cs
    | '/' => parseStringBody fuel (acc.push '/') cs
    | 'n' => parseStringBody fuel (acc.push '\n') cs
    | 't' => parseStringBody fuel (acc.push '\t') cs
    | 'r' => parseStringBody fuel (acc.push '\r') cs
    | _ => none
  | fuel + 1, acc, c :: cs =>
    if c.val ≥ 0x20 then parseStringBody fuel (acc.push c) cs else none
  | _ + 1, _, [] => none

/-- Parse a run of decimal digits into a natural number. -/
def parseDigits : List Char → Option (Nat × Nat × List Char)
  | c :: cs =>
    if c.isDigit then
      match parseDigits cs with
      | some (n, k, rest) => some ((c.toNat - '0'.toNat) * 10 ^ k + n, k + 1, rest)
      | none => some (c.toNat - '0'.toNat, 1, cs)
    else none
  | [] => none

mutual

/-- Parse one JSON value. -/
def parseValue : Nat → List Char → Option (PyVal × List Char)
  | 0, _ => none
  | fuel + 1, cs =>
    match skipWs cs with
    | '\"' :: rest =>
      match parseStringBody (fuel + 1) "" rest with
      | some (s, rest') => some (.str s, rest')
      | none => none
    | '{' :: rest =>
      match skipWs rest with
      | '}' :: rest' => some (.dict [], rest')
      | rest' => parseMembers fuel rest' []
    | '[' :: rest =>
      match skipWs rest with
      | ']' :: rest' => some (.list [], rest')
      | rest' => parseElements fuel rest' []
    | 't' :: 'r' :: 'u' :: 'e' :: rest => some (.bool true, rest)
    | 'f' :: 'a' :: 'l' :: 's' :: 'e' :: rest => some (.bool false, rest)
    | 'n' :: 'u' :: 'l' :: 'l' :: rest => some (.null, rest)
    | '-' :: rest =>
      match parseDigits rest with
      | some (n, _, rest') => finishNumber (-(n : Int)) rest'
      | none => none
    | rest =>
      match parseDigits rest with
      | some (n, _, rest') => finishNumber (n : Int) rest'
      | none => none

/-- Reject a numeric literal continued by a fraction or exponent
(floating-point literals are outside the modelled fragment). -/
def finishNumber (n : Int) : List Char → Option (PyVal × List Char)
  | c :: cs =>
    if c = '.' || c = 'e' || c = 'E' then none else some (.int n, c :: cs)
  | [] => some (.int n, [])

/-- Parse the members of a JSON object, after `{` (first key pending). -/
def parseMembers : Nat → List Char → PyDict → Option (PyVal × List Char)
  | 0, _, _ => none
  | fuel + 1, cs, acc =>
    match skipWs cs with
    | '\"' :: rest =>
      match parseStringBody (fuel + 1) "" rest with
      | some (k, rest') =>
        match skipWs rest' with
        | ':' :: rest'' =>
          match parseValue fuel rest'' with
          | some (v, rest''') =>
            match skipWs rest''' with
            | ',' :: more => parseMembers fuel more (acc ++ [(k, v)])
            | '}' :: more => some (.dict (acc ++ [(k, v)]), more)
            | _ => none
          | none => none
        | _ => none
      | none => none
    | _ => none

/-- Parse the elements of a JSON array, after `[` (first element pending). -/
def parseElements : Nat → List Char → List PyVal → Option (PyVal × List Char)
  | 0, _, _ => none
  | fuel + 1, cs, acc =>
    match parseValue fuel cs with
    | some (v, rest) =>
      match skipWs rest with
      | ',' :: more => parseElements fuel more (acc ++ [v])
      | ']' :: more => some (.list (acc ++ [v]), more)
      | _ => none
    | none => none

end

/-- Model of `json.loads`: parse a complete JSON document; trailing non-whitespace
is an error. -/
def jsonLoads (s : String) : Option PyVal :=
  match parseValue (s.length + 2) s.data with
  | some (v, rest) => if (skipWs rest).isEmpty then some v else none
  | none => none

/-- Python `s.replace(old, new)` for single-character patterns; the
normalizers only use it as `arguments_raw.replace("'", '\"')`. -/
def replaceChar (s : String) (old new : Char) : String :=
  ⟨s.data.map (fun c => if c = old then new else c)⟩

/-- Strip characters satisfying `p` from both ends (Python `str.strip`). -/
def stripBy (p : Char → Bool) (s : String) : String :=
  ⟨((s.data.dropWhile p).reverse.dropWhile p).reverse⟩

/-- Split a character list on a separator character; Python
`str.split(sep)` semantics (never empty, keeps empty fields). -/
def splitOnChar (sep : Char) : List Char → List (List Char)
  | [] => [[]]
  | c :: rest =>
    match splitOnChar sep rest with
    | g :: gs => if c = sep then [] :: g :: gs else (c :: g) :: gs
    | [] => [[c]]

/-- Join character lists with a separator character. -/
def joinWith (sep : Char) : List (List Char) → List Char
  | [] => []
  | [g] => g
  | g :: gs => g ++ sep :: joinWith sep gs

/-- Python dict assignment `d[k] = v`: overwrite in place if the key
exists (insertion position preserved), else append. -/
def dictSet (d : PyDict) (k : String) (v : PyVal) : PyDict :=
  if dictHas d k then d.map (fun kv => if kv.1 = k then (k, v) else kv)
  else d ++ [(k, v)]

/-! ### Tool call normalization

The repository contains two implementations of `Agent._normalize_tool_call`:
the refactored one in `src/code_ally/agent/agent.py` (lines 239–270) and
the legacy one in the monolithic `src/code_ally/agent.py` (lines
1226–1288).  Both are embedded.  Python exceptions that the code does
not catch (attribute errors from calling `.get` on a non-dict payload,
type errors from `json.loads` on a non-string) are modelled with
`Except String`; every caught exception is handled exactly where the
source handles it. -/

/-- A normalized call triple `(call_id, tool_name, arguments)` as the
Python functions return it. -/
abbrev Normalized := PyVal × PyVal × PyVal

/-- The argument fallback chain shared by both normalizers, applied to
`arguments_raw = function_call.get("arguments", "{}")`:
a native dict is used as is; otherwise strict JSON parse; otherwise
single quotes are replaced by double quotes and the parse retried.
`onFailure` is what the surrounding handler does when that retry also
fails — the two implementations differ exactly there.  A non-dict,
non-string payload makes Python's `json.loads` raise an uncaught
`TypeError`. -/
def parseArguments (argumentsRaw : PyVal) (onFailure : String → PyVal) :
    Except String PyVal :=
  match argumentsRaw with
  | .dict d => .ok (.dict d)
  | .str s =>
    match jsonLoads s with
    | some v => .ok v
    | none =>
      match jsonLoads (replaceChar s '\'' '\"') with
      | some v => .ok v
      | none => .ok (onFailure s)
  | _ => .error "TypeError: the JSON object must be str, bytes or bytearray"

/-- Embedding of `Agent._normalize_tool_call` from the refactored module
`src/code_ally/agent/agent.py` (lines 239–270).  `now` is
`int(time.time())`.  On total parse failure the arguments degrade to
`{"raw_args": raw}`. -/
def normalizeNew (now : Int) (toolCall : PyDict) : Except String Normalized :=
  let callId := (dictGet toolCall "id").getD (.str ("auto-id-" ++ toString now))
  let fc0 := (dictGet toolCall "function").getD (.dict [])
  -- `if not function_call and "name" in tool_call: function_call = tool_call`
  let functionCall := if !fc0.truthy && dictHas toolCall "name" then .dict toolCall else fc0
  match functionCall with
  | .dict fcd =>
    let toolName := (dictGet fcd "name").getD (.str "")
    let argumentsRaw := (dictGet fcd "arguments").getD (.str "\x7b\x7d")
    (match parseArguments argumentsRaw (fun s => .dict [("raw_args", .str s)]) with
     | .ok arguments => .ok (callId, toolName, arguments)
     | .error e => .error e)
  | _ => .error "AttributeError: no attribute get"

/-- Does `t` occur as a substring of `s` (Python `t in s` on strings)? -/
def containsSub (s t : String) : Bool :=
  t = "" || (s.splitOn t).length > 1

/-- The nested tool-name fallback of the legacy normalizer
(`src/code_ally/agent.py` lines 1250–1254): when the direct name is
falsy and the payload has both a `type` and a `function` key, look for
`name` inside `function_call["function"]`.  Python's `"name" in x`
check raises `TypeError` on non-container values and, on strings and
lists, a hit leads straight into `x["name"]`, which raises `TypeError`
for both. -/
def nestedToolName (fcd : PyDict) (toolName : PyVal) : Except String PyVal :=
  if !toolName.truthy then
    if dictHas fcd "type" && dictHas fcd "function" then
      match (dictGet fcd "function").getD (.dict []) with
      | .dict nd =>
        if dictHas nd "name" then .ok ((dictGet nd "name").getD .null)
        else .ok toolName
      | .str s =>
        if containsSub s "name" then
          .error "TypeError: string indices must be integers"
        else .ok toolName
      | .list xs =>
        if xs.any (fun x => pyEq x (.str "name")) then
          .error "TypeError: list indices must be integers"
        else .ok toolName
      | _ => .error "TypeError: argument of type is not iterable"
    else .ok toolName
  else .ok toolName

/-- The naive key:value extraction of the legacy normalizer
(`src/code_ally/agent.py` lines 1272–1286): strip surrounding braces,
split on commas, take the pieces containing a colon, split each at the
first colon, strip whitespace and then quote characters from both key
and value, and collect the pairs into a dict (later duplicates
overwrite).  None of these operations can raise, so the
`except Exception` fallback to `{"raw_args": raw}` in the source is
dead code: unparsable text yields this extraction's result (possibly
the empty dict), never the `raw_args` wrapper. -/
def kvExtract (s : String) : PyVal :=
  let pairs := splitOnChar ',' (stripBy (fun c => c = '{' || c = '}') s).data
  .dict <| pairs.foldl (fun acc pair =>
    match splitOnChar ':' pair with
    | k :: rest =>
      if rest.isEmpty then acc
      else
        let key := stripBy (fun c => c = '\"' || c = '\'')
          (stripBy Char.isWhitespace ⟨k⟩)
        let val := stripBy (fun c => c = '\"' || c = '\'')
          (stripBy Char.isWhitespace ⟨joinWith ':' rest⟩)
        dictSet acc key (.str val)
    | [] => acc) []

/-- Embedding of `Agent._normalize_tool_call` from the legacy monolithic module
`src/code_ally/agent.py` (lines 1226–1288).  Differs from
`normalizeNew` in the nested tool-name fallback and in falling back to
naive key:value extraction instead of the `raw_args` wrapper. -/
def normalizeOld (now : Int) (toolCall : PyDict) : Except String Normalized :=
  let callId := (dictGet toolCall "id").getD (.str ("auto-id-" ++ toString now))
  let fc0 := (dictGet toolCall "function").getD (.dict [])
  let functionCall := if !fc0.truthy && dictHas toolCall "name" then .dict toolCall else fc0
  match functionCall with
  | .dict fcd =>
    (match nestedToolName fcd ((dictGet fcd "name").getD (.str "")) with
     | .ok toolName =>
       let argumentsRaw := (dictGet fcd "arguments").getD (.str "\x7b\x7d")
       (match parseArguments argumentsRaw kvExtract with
        | .ok arguments => .ok (callId, toolName, arguments)
        | .error e => .error e)
     | .error e => .error e)
  | _ => .error "AttributeError: no attribute get"

/-! ### Serialization helpers -/

/-- Quote a string as a JSON string literal with the common escapes
(`json.dumps` on ASCII text; the `\uXXXX` escaping of exotic characters
is outside the modelled fragment). -/
def jsonQuote (s : String) : String :=
  "\"" ++ String.join (s.data.map fun c =>
    if c = '\"' then "\\\""
    else if c = '\\' then "\\\\"
    else if c = '\n' then "\\n"
    else if c = '\t' then "\\t"
    else if c = '\r' then "\\r"
    else String.singleton c) ++ "\""

mutual

/-- Model of `json.dumps` with the default separators `", "` and `": "`, dict
entries in insertion order. -/
def pyDumps : PyVal → String
  | .str s => jsonQuote s
  | .int n => toString n
  | .bool b => cond b "true" "false"
  | .null => "null"
  | .list xs => "[" ++ pyDumpsList xs ++ "]"
  | .dict d => "\x7b" ++ pyDumpsDict d ++ "\x7d"

/-- The comma-joined elements of a dumped list. -/
def pyDumpsList : List PyVal → String
  | [] => ""
  | [x] => pyDumps x
  | x :: xs => pyDumps x ++ ", " ++ pyDumpsList xs

/-- The comma-joined entries of a dumped dict. -/
def pyDumpsDict : List (String × PyVal) → String
  | [] => ""
  | [(k, v)] => jsonQuote k ++ ": " ++ pyDumps v
  | (k, v) :: kvs => jsonQuote k ++ ": " ++ pyDumps v ++ ", " ++ pyDumpsDict kvs

end

mutual

/-- Python `repr` of a payload value (strings single-quoted; escaping
corners outside the modelled fragment). -/
def pyRepr : PyVal → String
  | .str s => "'" ++ s ++ "'"
  | .int n => toString n
  | .bool b => cond b "True" "False"
  | .null => "None"
  | .list xs => "[" ++ pyReprList xs ++ "]"
  | .dict d => "\x7b" ++ pyReprDict d ++ "\x7d"

/-- The comma-joined elements of a repr'd list. -/
def pyReprList : List PyVal → String
  | [] => ""
  | [x] => pyRepr x
  | x :: xs => pyRepr x ++ ", " ++ pyReprList xs

/-- The comma-joined entries of a repr'd dict. -/
def pyReprDict : List (String × PyVal) → String
  | [] => ""
  | [(k, v)] => "'" ++ k ++ "': " ++ pyRepr v
  | (k, v) :: kvs => "'" ++ k ++ "': " ++ pyRepr v ++ ", " ++ pyReprDict kvs

end

/-- Python `str()` of a payload value, as an f-string renders it. -/
def pyStr : PyVal → String
  | .str s => s
  | v => pyRepr v

/-! ### Redundancy filter

`ToolManager.is_redundant_call` / `record_tool_call`
(src/code_ally/agent/tool_manager.py lines 196–229; the private
`_is_redundant_call` / `_record_tool_call` used by `execute_tool`, lines
291–308 and 334–346, are verbatim copies). -/

/-- A record in the recent-call window:
`(tool_name, tuple(sorted(arguments.items())))`. -/
abbrev CallRecord := String × PyDict

/-- The window of recent call records (`self.recent_tool_calls`). -/
abbrev RecentCalls := List CallRecord

/-- Build the record for a call. -/
def toRecord (toolName : String) (args : PyDict) : CallRecord :=
  (toolName, sortedItems args)

/-- Python `==` on two records: tuple equality is componentwise, and the
sorted-items tuples compare pairwise by key equality and value `==`. -/
def recordEq (a b : CallRecord) : Bool :=
  a.1 = b.1 && pyEq (.dict a.2) (.dict b.2)

/-- Embedding of `ToolManager.is_redundant_call`: redundant iff the tool is `ls` and
any record in the window used `ls`, or the exact record is in the
window. -/
def isRedundantCall (recent : RecentCalls) (toolName : String) (args : PyDict) : Bool :=
  if toolName = "ls" && recent.any (fun c => c.1 = "ls") then true
  else recent.any (recordEq (toRecord toolName args))

/-- Constant `self.max_recent_calls`: remember the last 5 calls. -/
def maxRecentCalls : Nat := 5

/-- Embedding of `ToolManager.record_tool_call`: append the record, then keep only
the last `maxRecentCalls` records
(`self.recent_tool_calls[-self.max_recent_calls:]`). -/
def recordToolCall (recent : RecentCalls) (toolName : String) (args : PyDict) :
    RecentCalls :=
  let r := recent ++ [toRecord toolName args]
  if r.length > maxRecentCalls then r.drop (r.length - maxRecentCalls) else r

/-! ### Tool execution (`ToolManager.execute_tool`)

From src/code_ally/agent/tool_manager.py (lines 231–448).  A tool is the
external collaborator of spec §6: a name, a `requires_confirmation`
flag, and an `execute` function whose `.error` outcome models a raised
exception.  The permission gate (`PermissionManager.check_permission`,
whose module is not under src/) is an external boolean oracle per the
spec's Permission Gate contract. -/

/-- A Python exception raised by a tool's `execute`. -/
inductive ToolExc where
  | jsonDecodeError (msg : String)
  | other (msg : String)

/-- An external tool (spec §6 collaborator contract). -/
structure Tool where
  name : String
  requiresConfirmation : Bool
  execute : PyDict → Except ToolExc PyDict

/-- Registry `self.tools = {tool.name: tool for tool in tools}`: a dict
comprehension, so a later tool with the same name overwrites an earlier
one; lookup finds the last match. -/
def findTool (tools : List Tool) (name : String) : Option Tool :=
  tools.reverse.find? (fun t => t.name = name)

/-- Embedding of `ToolManager._create_error_result`. -/
def mkErrorResult (msg : String) : PyDict :=
  [("success", .bool false), ("error", .str msg)]

/-- The error message of `ToolManager._handle_redundant_call` (lines
310–332): the "Directory was already shown." wording is used for every
tool, with the context-check suffix when `check_context_msg` is set. -/
def redundantErrorMsg (toolName : String) (checkContextMsg : Bool) : String :=
  "Redundant call to " ++ toolName ++ ". Directory was already shown."
    ++ (if checkContextMsg then " Please check your context for the previous result." else "")

/-- The result of one `execute_tool` call: the result dict, the updated
recent-call window, and the trace of actual `tool.execute` invocations
(used to state that a short-circuited call never invokes the tool). -/
abbrev ExecOutcome := PyDict × RecentCalls × List (String × PyDict)

/-- Embedding of `ToolManager.execute_tool` (lines 231–271), with its helpers
`_is_valid_tool`, `_handle_redundant_call`, `_record_tool_call`,
`_check_permissions` and `_perform_tool_execution` inlined in source
order.  `toolName` arrives as the normalized `PyVal`: dict membership on
an unhashable name raises, a hashable non-string name is simply not a
key, and `sorted(arguments.items())` on a non-dict argument payload
raises before anything is recorded. -/
def executeTool (tools : List Tool) (permission : String → PyDict → Option String → Bool)
    (recent : RecentCalls) (toolName : PyVal) (args : PyVal)
    (checkContextMsg : Bool) (batchId : Option String) :
    Except String ExecOutcome :=
  -- `if not self._is_valid_tool(tool_name): return Unknown tool`
  match toolName with
  | .list _ => .error "TypeError: unhashable type"
  | .dict _ => .error "TypeError: unhashable type"
  | .int n => .ok (mkErrorResult ("Unknown tool: " ++ pyStr (.int n)), recent, [])
  | .bool b => .ok (mkErrorResult ("Unknown tool: " ++ pyStr (.bool b)), recent, [])
  | .null => .ok (mkErrorResult ("Unknown tool: " ++ pyStr .null), recent, [])
  | .str s =>
    match findTool tools s with
    | none => .ok (mkErrorResult ("Unknown tool: " ++ s), recent, [])
    | some tool =>
      match args with
      | .dict argd =>
        -- `if self._is_redundant_call(...): return self._handle_redundant_call(...)`
        if isRedundantCall recent tool.name argd then
          .ok (mkErrorResult (redundantErrorMsg tool.name checkContextMsg), recent, [])
        else
          -- `self._record_tool_call(tool_name, arguments)`
          let recent' := recordToolCall recent tool.name argd
          -- `if not self._check_permissions(...): return Permission denied`
          if tool.requiresConfirmation && !permission tool.name argd batchId then
            .ok (mkErrorResult ("Permission denied for " ++ tool.name), recent', [])
          else
            -- `self._perform_tool_execution(...)`: invoke, catching everything
            match tool.execute argd with
            | .ok r => .ok (r, recent', [(tool.name, argd)])
            | .error (.jsonDecodeError m) =>
              .ok (mkErrorResult ("JSON Error executing " ++ tool.name ++ ": " ++ m),
                recent', [(tool.name, argd)])
            | .error (.other m) =>
              .ok (mkErrorResult ("Error executing " ++ tool.name ++ ": " ++ m),
                recent', [(tool.name, argd)])
      | _ => .error "TypeError: argument payload has no items()"

/-! ### Messages and the parallel dispatcher -/

/-- A conversation message (spec §3): a dict with a `role`, usually a
`content` string, and optionally the tool-call bookkeeping fields.
`none` models an absent key. -/
structure Message where
  role : Option String := none
  content : Option String := none
  toolCallId : Option PyVal := none
  name : Option PyVal := none
  functionCall : Option PyDict := none
  toolCalls : Option (List PyDict) := none

/-- Model of `format_tool_result` (identity, tool_manager.py lines 450–464)
composed with `Agent._format_tool_result_as_natural_language`
(agent/agent.py lines 451–490) for result dicts: `json.dumps(result)`.
The vendor tag-stripping branch only fires on results containing
`<tool_response>`/`<search_reminders>` markers, which no embedded result
does. -/
def formatResultContent (result : PyDict) : String :=
  pyDumps (.dict result)

/-- The tool-role message appended for one completed call
(agent/agent.py lines 433–440). -/
def mkToolMessage (callId : PyVal) (toolName : PyVal) (content : String) : Message :=
  { role := some "tool", toolCallId := some callId, name := some toolName,
    content := some content }

/-- The first loop of `Agent._process_parallel_tool_calls` (agent/agent.py
lines 339–353): normalize every raw call, keep those with a truthy tool
name, and skip any call whose normalization raises (the loop catches
every exception). -/
def normalizedCallsOf (now : Int) : List PyDict → List Normalized
  | [] => []
  | tc :: rest =>
    match normalizeNew now tc with
    | .ok (cid, tn, args) =>
      if tn.truthy then (cid, tn, args) :: normalizedCallsOf now rest
      else normalizedCallsOf now rest
    | .error _ => normalizedCallsOf now rest

/-- The permission path attached to a protected call (spec's
"permission path"): the whole argument dict for `bash` with a `command`,
else the first string argument named `path` or `file_path`, else none. -/
inductive PermissionPath where
  | args (d : PyDict)
  | path (s : String)
  | nonePath

/-- Whether a payload value is a string (`isinstance(v, str)`). -/
def PyVal.isStr : PyVal → Bool
  | .str _ => true
  | _ => false

/-- One step of the protected-tools scan of
`_process_parallel_tool_calls` (agent/agent.py lines 356–374): the
`(tool_name, permission_path)` entry contributed by one normalized
call, or `none` when its tool needs no confirmation or is unknown.
Membership of an unhashable name in `self.tool_manager.tools` raises,
as does iterating `.items()` of a non-dict argument payload of a
protected call. -/
def protEntry (tools : List Tool) (tn : PyVal) (args : PyVal) :
    Except String (Option (String × PermissionPath)) :=
  match tn with
  | .list _ => .error "TypeError: unhashable type"
  | .dict _ => .error "TypeError: unhashable type"
  | .int _ => .ok none
  | .bool _ => .ok none
  | .null => .ok none
  | .str s =>
    match findTool tools s with
    | none => .ok none
    | some tool =>
      if tool.requiresConfirmation then
        match args with
        | .dict argd =>
          if s = "bash" && dictHas argd "command" then
            .ok (some (s, PermissionPath.args argd))
          else
            (match argd.find? (fun kv =>
                (kv.2.isStr && (kv.1 = "path" || kv.1 = "file_path") : Bool)) with
             | some (_, .str p) => .ok (some (s, PermissionPath.path p))
             | _ => .ok (some (s, PermissionPath.nonePath)))
        | _ => .error "TypeError: argument payload is not a dict"
      else .ok none

/-- The protected-tools loop: collect the entries of `protEntry` over
the normalized calls in order, propagating the first raise. -/
def protectedScan (tools : List Tool) :
    List Normalized → Except String (List (String × PermissionPath))
  | [] => .ok []
  | (_, tn, args) :: rest =>
    match protEntry tools tn args with
    | .error e => .error e
    | .ok entry? =>
      match protectedScan tools rest with
      | .error e => .error e
      | .ok rest' =>
        .ok (match entry? with
             | some e => e :: rest'
             | none => rest')

/-- The state the parallel dispatcher threads through the executor
phase: the shared recent-call window, the message log, and the trace of
tools actually invoked. -/
structure DispatchState where
  recent : RecentCalls
  messages : List Message
  executed : List (String × PyDict)

/-- One worker plus its `as_completed` handler (agent/agent.py lines
396–447): run `execute_tool` and append the tool-role message; an
exception escaping `execute_tool` is caught by the handler, which then
appends nothing (and the raise happens before any window mutation). -/
def runOneCall (tools : List Tool) (permission : String → PyDict → Option String → Bool)
    (checkContextMsg : Bool) (batchId : Option String)
    (st : DispatchState) (c : Normalized) : DispatchState :=
  let (cid, tn, args) := c
  match executeTool tools permission st.recent tn args checkContextMsg batchId with
  | .ok (result, recent', tr) =>
    { recent := recent'
      messages := st.messages ++ [mkToolMessage cid tn (formatResultContent result)]
      executed := st.executed ++ tr }
  | .error _ => st

/-- Embedding of `Agent._process_parallel_tool_calls` (agent/agent.py lines 333–449).
`promptGranted` is the user's single consolidated batch decision
(`trust_manager.prompt_for_parallel_operations`).  On denial the
dispatcher returns with nothing executed and nothing appended.  With an
empty normalized batch, `ThreadPoolExecutor(max_workers=min(0, 5))`
raises `ValueError`.  Workers run concurrently in Python and results
are appended in completion order; the embedding fixes the
submission-order schedule, one admissible completion order (no claim
under verification depends on the order). -/
def processParallelToolCalls (now : Int) (tools : List Tool)
    (permission : String → PyDict → Option String → Bool)
    (promptGranted : Bool) (checkContextMsg : Bool)
    (recent : RecentCalls) (msgs : List Message)
    (toolCalls : List PyDict) : Except String DispatchState :=
  let normalized := normalizedCallsOf now toolCalls
  let batchId := "parallel-" ++ toString now
  match protectedScan tools normalized with
  | .error e => .error e
  | .ok protectedTools =>
    if !protectedTools.isEmpty && !promptGranted then
      -- `self.ui.print_warning("Permission denied for parallel operations"); return`
      .ok ⟨recent, msgs, []⟩
    else if normalized.isEmpty then
      .error "ValueError: max_workers must be greater than 0"
    else
      .ok (normalized.foldl
        (runOneCall tools permission checkContextMsg (some batchId))
        ⟨recent, msgs, []⟩)

/-! ### Conversation compaction

`CommandHandler.compact_conversation` from the legacy monolith
(src/code_ally/agent.py lines 913–992).  The content of the synthetic
compaction notice comes from `get_system_message("compaction_notice")`
in `code_ally/prompts/system_messages.py`, a module not under src/, so
it is passed in as an opaque `noticeContent` string.  The update of
`token_manager.last_compaction_time` is a side effect on the tracker,
not on the returned log, and is not part of any claim under
verification. -/

/-- Embedding of `CommandHandler.compact_conversation`: find the first system
message, return the log unchanged when it has fewer than 4 messages,
else keep [first system message (if any), first user message (if any),
a synthetic system compaction notice, the last 6 messages]. -/
def compactConversation (noticeContent : String) (messages : List Message) :
    List Message :=
  let systemMessage := messages.find? (fun m => m.role = some "system")
  if messages.length < 4 then messages
  else
    (match systemMessage with | some m => [m] | none => [])
    ++ (match messages.find? (fun m => m.role = some "user") with
        | some m => [m] | none => [])
    ++ [{ role := some "system", content := some noticeContent }]
    ++ messages.drop (messages.length - 6)

/-! ### Token estimation

`TokenManager.estimate_tokens` from the legacy monolith
(src/code_ally/agent.py lines 64–139).  The constants are
`tokens_per_message = 4`, `tokens_per_name = 1`, `chars_per_token =
4.0`.  All float arithmetic is sums of quarters of character counts,
exact in IEEE-754 doubles at conversation scale, so it is carried out
in `ℚ`; the final `max(1, int(total))` truncates a nonnegative total,
i.e. takes its floor. -/

/-- Python `len()` on a payload value: characters of a string, entries
of a dict, elements of a list (`len` of a number would raise; no
message the orchestrator builds puts a number there). -/
def pyLen : PyVal → Nat
  | .str s => s.length
  | .list xs => xs.length
  | .dict d => d.length
  | _ => 0

/-- The token-count cache `self._token_cache`, keyed by
`(role, content)`. -/
abbrev TokenCache := List ((String × String) × ℚ)

/-- Look a key up in the cache. -/
def cacheLookup (cache : TokenCache) (k : String × String) : Option ℚ :=
  (cache.find? (fun e => e.1 = k)).map (·.2)

/-- Python `self._token_cache[cache_key] = message_tokens`. -/
def cacheInsert (cache : TokenCache) (k : String × String) (q : ℚ) : TokenCache :=
  if (cacheLookup cache k).isSome then
    cache.map (fun e => if e.1 = k then (k, q) else e)
  else cache ++ [(k, q)]

/-- The cache key of a message: `(role, content)` when both keys are
present. -/
def cacheKey (m : Message) : Option (String × String) :=
  match m.role, m.content with
  | some r, some c => some (r, c)
  | _, _ => none

/-- The `function_call` contribution: when the key is present and the
dict truthy (nonempty), `len()` of the name value and of the arguments
value, each divided by 4 — note `len`, not `len(json.dumps(...))`, even
for dict-valued arguments. -/
def functionCallTokens (m : Message) : ℚ :=
  match m.functionCall with
  | some fc =>
    if fc.isEmpty then 0
    else
      (match dictGet fc "name" with | some v => (pyLen v : ℚ) / 4 | none => 0)
      + (match dictGet fc "arguments" with | some v => (pyLen v : ℚ) / 4 | none => 0)
  | none => 0

/-- The contribution of one entry of `tool_calls`: `len()` of the
function's name value, plus for the arguments a string's length or a
dict's `len(json.dumps(...))`, each divided by 4; other argument types
contribute nothing (the `elif` chain falls through).  A non-dict
`function` value contributes nothing here (no client produces one). -/
def toolCallTokens (tc : PyDict) : ℚ :=
  match dictGet tc "function" with
  | some (.dict f) =>
    (match dictGet f "name" with | some v => (pyLen v : ℚ) / 4 | none => 0)
    + (match dictGet f "arguments" with
       | some (.str s) => (s.length : ℚ) / 4
       | some (.dict d) => (((pyDumps (.dict d)).length : ℚ)) / 4
       | _ => 0)
  | _ => 0

/-- The freshly computed token count of one message (the non-cached
branch of the loop): 4 for structure, 1 if a role key is present,
`len(content)/4.0` for truthy content, plus the `function_call` and
`tool_calls` contributions (`tool_calls` only when present and
nonempty). -/
def messageTokens (m : Message) : ℚ :=
  4 + (if m.role.isSome then 1 else 0)
  + (match m.content with
     | some c => if c ≠ "" then (c.length : ℚ) / 4 else 0
     | none => 0)
  + functionCallTokens m
  + (match m.toolCalls with
     | some tcs => if tcs.isEmpty then 0 else (tcs.map toolCallTokens).sum
     | none => 0)

/-- The loop of `estimate_tokens`, threading the per-session cache:
a cached key contributes its cached value and recomputes nothing; a
fresh key contributes `messageTokens` and stores it. -/
def estimateTokensAux (cache : TokenCache) : List Message → ℚ × TokenCache
  | [] => (0, cache)
  | m :: rest =>
    match cacheKey m with
    | some k =>
      match cacheLookup cache k with
      | some q =>
        let (total, cache') := estimateTokensAux cache rest
        (q + total, cache')
      | none =>
        let mt := messageTokens m
        let (total, cache') := estimateTokensAux (cacheInsert cache k mt) rest
        (mt + total, cache')
    | none =>
      let mt := messageTokens m
      let (total, cache') := estimateTokensAux cache rest
      (mt + total, cache')

/-- Embedding of `TokenManager.estimate_tokens`: the loop total, then
`max(1, int(token_count))` — `int()` truncates toward zero, which on
the nonnegative total is the floor. -/
def estimateTokens (cache : TokenCache) (msgs : List Message) : Int × TokenCache :=
  let (q, cache') := estimateTokensAux cache msgs
  (max 1 ⌊q⌋, cache')

/-! ### The request-in-progress flag (conversation orchestrator)

`Agent.process_llm_response` (agent/agent.py lines 130–237) and the
turn body of `Agent.run_conversation` (lines 539–603).  The model
client, the tool dispatch outcome and the user's keyboard are the
environment; a turn's environment is scripted as a list of
`SendOutcome`s (one per `model_client.send` call — a returned response
or a `KeyboardInterrupt` raised while the request is in flight)
together with per-response dispatch effects carried on `Response`.
Thinking-animation and verbose-printing calls have no effect on the
message log or the flag and are elided. -/

/-- A model response as `process_llm_response` consumes it, together
with the scripted environment outcome of dispatching its tool calls:
`dispatchDenied` models `PermissionDeniedError` escaping the dispatch
(the `except` at lines 166–168), `toolMsgs` the tool-role messages the
dispatch appends. -/
structure Response where
  content : String := ""
  toolCallsKey : Option (List PyDict) := none
  functionCall : Option PyDict := none
  interrupted : Bool := false
  dispatchDenied : Bool := false
  toolMsgs : List Message := []

/-- One `model_client.send` call's outcome: a response, or a
`KeyboardInterrupt` raised while the request is in flight. -/
inductive SendOutcome where
  | resp (r : Response)
  | kbInterrupt

/-- The orchestrator state the claims quantify over: the message log
and `self.request_in_progress`. -/
structure AgentState where
  messages : List Message
  requestInProgress : Bool

/-- The interrupt test applied to every received response (lines
194–197 and 569–572): trimmed content equal to one of the three
sentinel strings, or the `interrupted` flag. -/
def isInterruptedResponse (r : Response) : Bool :=
  let c := stripBy Char.isWhitespace r.content
  c = "[Request interrupted by user]"
  || c = "[Request interrupted by user for tool use]"
  || c = "[Request interrupted by user due to permission denial]"
  || r.interrupted

/-- Tool-call extraction at the top of `process_llm_response` (lines
136–152): a present `tool_calls` key wins; otherwise a truthy
`function_call` is wrapped as a single manual-id call. -/
def responseToolCalls (now : Int) (r : Response) : List PyDict :=
  match r.toolCallsKey with
  | some l => l
  | none =>
    match r.functionCall with
    | some fc =>
      if !fc.isEmpty then
        [[("id", .str ("manual-id-" ++ toString now)),
          ("type", .str "function"), ("function", .dict fc)]]
      else []
    | none => []

/-- The assistant message appended for a response (the response dict is
appended as is; the client stamps it with the assistant role). -/
def Response.toMessage (r : Response) : Message :=
  { role := some "assistant", content := some r.content,
    toolCalls := r.toolCallsKey }

/-- Embedding of `Agent.process_llm_response`, with `model_client.send` outcomes
scripted.  The flag transitions are embedded line by line:
set before the follow-up request (line 185), cleared after a received
response (line 191), cleared again on the sentinel path (line 199) —
and NOT cleared in the `except KeyboardInterrupt` handler (lines
227–231), which only stops the animation and returns.  An exhausted
script means the turn is not observed further; the state is returned
as is. -/
def processLlmResponse (now : Int) :
    List SendOutcome → AgentState → Response → AgentState
  | script, st, r =>
    if (responseToolCalls now r).isEmpty then
      -- normal text response: append and return
      { st with messages := st.messages ++ [r.toMessage] }
    else
      let st₁ : AgentState := { st with messages := st.messages ++ [r.toMessage] }
      if r.dispatchDenied then st₁   -- `except PermissionDeniedError: return`
      else
        let st₂ : AgentState := { st₁ with messages := st₁.messages ++ r.toolMsgs }
        match script with
        | [] => st₂
        | o :: rest =>
          let st₃ : AgentState := { st₂ with requestInProgress := true }  -- line 185
          match o with
          | .kbInterrupt => st₃            -- lines 227–231: flag left set
          | .resp fr =>
            let st₄ : AgentState := { st₃ with requestInProgress := false }  -- line 191
            if isInterruptedResponse fr then
              { st₄ with requestInProgress := false }  -- line 199
            else
              processLlmResponse now rest st₄ fr

/-- The request/response part of one `run_conversation` turn (lines
539–603), from appending the user message onward.  Unlike
`processLlmResponse`, the turn's own `except KeyboardInterrupt` handler
(lines 597–602) DOES clear the flag. -/
def runConversationTurn (now : Int) (script : List SendOutcome)
    (st : AgentState) (userInput : String) : AgentState :=
  let st₁ : AgentState :=
    { st with messages := st.messages ++ [{ role := some "user", content := some userInput }] }
  match script with
  | [] => st₁
  | o :: rest =>
    let st₂ : AgentState := { st₁ with requestInProgress := true }  -- line 560
    match o with
    | .kbInterrupt => { st₂ with requestInProgress := false }  -- line 599
    | .resp r =>
      let st₃ : AgentState := { st₂ with requestInProgress := false }  -- line 566
      if isInterruptedResponse r then
        { st₃ with requestInProgress := false }  -- line 574
      else
        processLlmResponse now rest st₃ r

/-! ### Auxiliary notions used by the claims -/

/-- The last `n` elements of a list (`l[-n:]`). -/
def lastN (n : Nat) (l : List α) : List α :=
  l.drop (l.length - n)

/-- The recent-call window after recording a history of calls, starting
from the empty window. -/
def windowOf (hist : List (String × PyDict)) : RecentCalls :=
  hist.foldl (fun st p => recordToolCall st p.1 p.2) []

/-- An argument payload slot fits the data model: absent, a string, or a
native dict (spec §3: "Arguments may be a JSON-encoded string, a native
mapping, or malformed text"). -/
def ArgsShapeOk (d : PyDict) : Prop :=
  ∀ v, dictGet d "arguments" = some v →
    (∃ s, v = PyVal.str s) ∨ (∃ dd, v = PyVal.dict dd)

/-- A raw tool call fits the spec's `ToolCallRef` shape: the `function`
value, when present, is an object, and whichever payload carries the
arguments holds a string or a native mapping there. -/
def RawCallShapeOk (tc : PyDict) : Prop :=
  (∀ v, dictGet tc "function" = some v → ∃ d, v = PyVal.dict d)
  ∧ (∀ d, dictGet tc "function" = some (PyVal.dict d) → ArgsShapeOk d)
  ∧ ArgsShapeOk tc

/-- Serialize an argument payload "to text first" as the spec's
estimation model words it. -/
def serializeToText : PyVal → String
  | .str s => s
  | v => pyDumps v

/-- Modelled from the spec (§4.4 estimation model): per message,
`tokensPerMessage (4) + tokensPerRole (1) + len(content)/4.0`, plus the
character-based estimate of any function-call or tool-call *argument*
payloads, serialized to text first — the formula the claim states,
which charges nothing for the function *names*. -/
def claimedMessageTokens (m : Message) : ℚ :=
  4 + (if m.role.isSome then 1 else 0)
  + (match m.content with
     | some c => if c ≠ "" then (c.length : ℚ) / 4 else 0
     | none => 0)
  + (match m.functionCall with
     | some fc =>
       (match dictGet fc "arguments" with
        | some v => ((serializeToText v).length : ℚ) / 4
        | none => 0)
     | none => 0)
  + (match m.toolCalls with
     | some tcs =>
       (tcs.map (fun tc =>
         match dictGet tc "function" with
         | some (.dict f) =>
           (match dictGet f "arguments" with
            | some v => ((serializeToText v).length : ℚ) / 4
            | none => 0)
         | _ => 0)).sum
     | none => 0)

/-- The shape hypothesis of C8(b): a normalized call whose tool name is
a string and whose arguments are a dict, the only calls a worker can
turn into an appended result without raising. -/
def ExecShapeOk (c : Normalized) : Prop :=
  (∃ s, c.2.1 = PyVal.str s) ∧ (∃ d, c.2.2 = PyVal.dict d)

/-! #### Concrete probe inputs -/

/-- A raw `ls` tool call with an explicit id. -/
def probeCall : PyDict :=
  [("id", .str "call-0"),
   ("function", .dict [("name", .str "ls"), ("arguments", .str "\x7b\x7d")])]

/-- A response carrying one tool call, whose dispatch succeeds with one
tool message. -/
def probeResponse : Response :=
  { content := "", toolCallsKey := some [probeCall],
    toolMsgs := [mkToolMessage (.str "call-0") (.str "ls") "ok"] }

/-- A follow-up response whose content is the user-cancel sentinel. -/
def sentinelResponse : Response :=
  { content := "[Request interrupted by user]" }

/-- A raw call without an `id` naming tool `a`. -/
def idlessCallA : PyDict := [("function", .dict [("name", .str "a")])]

/-- A raw call without an `id` naming tool `b`. -/
def idlessCallB : PyDict := [("function", .dict [("name", .str "b")])]

/-- A raw call whose nested `function.function.name` the legacy
normalizer resolves and the refactored one does not. -/
def nestedNameCall : PyDict :=
  [("function", .dict [("type", .str "function"),
                       ("function", .dict [("name", .str "ls")])])]

/-- A raw call whose argument text `x=1` fails every parse. -/
def unparsableArgsCall : PyDict :=
  [("id", .str "call-7"),
   ("function", .dict [("name", .str "file_read"), ("arguments", .str "x=1")])]

/-- A raw call with single-quoted (Python-repr style) argument text. -/
def singleQuotedArgsCall : PyDict :=
  [("id", .str "call-1"),
   ("function", .dict [("name", .str "file_read"),
                       ("arguments", .str "\x7b'a': 1\x7d")])]

/-- A message with an empty content and a `function_call` whose name has
4 characters and whose arguments are empty: the code charges
`4 + 1 + 4/4 = 6` tokens, the claim's formula only `4 + 1 = 5`. -/
def namedFunctionCallMsg : Message :=
  { role := some "assistant", content := some "",
    functionCall := some [("name", .str "abcd"), ("arguments", .str "")] }

/-- A message with the given role, content, and a `function_call`
carrying string-valued `name` and `arguments`. -/
def fcProbeMsg (r c fn fa : String) : Message :=
  { role := some r, content := some c,
    functionCall := some [("name", .str fn), ("arguments", .str fa)] }

/-- A plain user message, cache key `("u", "hello")`. -/
def cachedProbePlain : Message := { role := some "u", content := some "hello" }

/-- A message with the same cache key as `cachedProbePlain` but with an
attached `function_call` payload. -/
def cachedProbePayload : Message :=
  { role := some "u", content := some "hello",
    functionCall := some [("name", .str "abc"), ("arguments", .str "xyz")] }

/-! ## Helper lemmas -/

mutual

/-- Reflexivity of `pyEq` (Python `v == v` on payload values). -/
theorem pyEq_refl : (v : PyVal) → pyEq v v = true
  | .str _ => by simp [pyEq]
  | .int _ => by simp [pyEq]
  | .bool _ => by simp [pyEq]
  | .null => by simp [pyEq]
  | .list xs => by simp [pyEq, pyEqList_refl xs]
  | .dict d => by simp [pyEq, pyEqDict_refl d]

/-- Reflexivity of `pyEqList`. -/
theorem pyEqList_refl : (xs : List PyVal) → pyEqList xs xs = true
  | [] => by simp [pyEqList]
  | x :: xs => by simp [pyEqList, pyEq_refl x, pyEqList_refl xs]

/-- Reflexivity of `pyEqDict`. -/
theorem pyEqDict_refl : (d : List (String × PyVal)) → pyEqDict d d = true
  | [] => by simp [pyEqDict]
  | (k, v) :: kvs => by simp [pyEqDict, pyEq_refl v, pyEqDict_refl kvs]

end

/-- Reflexivity of `recordEq`. -/
theorem recordEq_refl (r : CallRecord) : recordEq r r = true := by
  simp [recordEq, pyEq_refl]

/-- A found tool carries the looked-up name. -/
theorem findTool_name {tools : List Tool} {name : String} {tool : Tool}
    (h : findTool tools name = some tool) : tool.name = name := by
  have := List.find?_some h
  simpa using this

/-- The argument fallback chain succeeds on every string and on every
native dict: each parse failure is handled. -/
theorem parseArguments_isOk (v : PyVal) (onF : String → PyVal)
    (h : (∃ s, v = PyVal.str s) ∨ (∃ d, v = PyVal.dict d)) :
    ∃ out, parseArguments v onF = .ok out := by
  rcases h with ⟨s, rfl⟩ | ⟨d, rfl⟩
  · cases hj : jsonLoads s with
    | some w => exact ⟨w, by simp [parseArguments, hj]⟩
    | none =>
      cases hj2 : jsonLoads (replaceChar s '\'' '\"') with
      | some w => exact ⟨w, by simp [parseArguments, hj, hj2]⟩
      | none => exact ⟨onF s, by simp [parseArguments, hj, hj2]⟩
  · exact ⟨.dict d, rfl⟩

/-- Recording into a window that is the last-5 suffix of a record
history extends the history: the window stays its last-5 suffix. -/
theorem recordToolCall_lastN (R : List CallRecord) (n : String) (a : PyDict) :
    recordToolCall (lastN maxRecentCalls R) n a
      = lastN maxRecentCalls (R ++ [toRecord n a]) := by
  unfold recordToolCall lastN maxRecentCalls
  by_cases h : R.length ≤ 4
  · have h0 : R.length - 5 = 0 := by omega
    rw [h0, List.drop_zero]
    have hlen : (R ++ [toRecord n a]).length = R.length + 1 := by simp
    rw [if_neg (by simp; omega)]
    have h1 : R.length + 1 - 5 = 0 := by omega
    simp [h1]
  · push_neg at h
    have h5 : 5 ≤ R.length := by omega
    have hdlen : (R.drop (R.length - 5)).length = 5 := by
      simp [List.length_drop]
      omega
    rw [if_pos (by simp [hdlen])]
    have h1 : (R.drop (R.length - 5) ++ [toRecord n a]).length - 5 = 1 := by
      simp [hdlen]
    rw [h1]
    rw [List.drop_append_of_le_length (by omega : 1 ≤ (R.drop (R.length - 5)).length),
      List.drop_drop]
    have hL : (R ++ [toRecord n a]).length = R.length + 1 := by simp
    have h2 : (R ++ [toRecord n a]).length - 5 = R.length - 4 := by omega
    rw [h2, List.drop_append_of_le_length (by omega : R.length - 4 ≤ R.length)]
    have h3 : R.length - 5 + 1 = R.length - 4 := by omega
    rw [h3]

/-- The recent-call window after any history is the last-5 suffix of
the history's records. -/
theorem windowOf_eq (hist : List (String × PyDict)) :
    windowOf hist = lastN maxRecentCalls (hist.map (fun p => toRecord p.1 p.2)) := by
  induction hist using List.reverseRecOn with
  | nil => rfl
  | append_singleton hist c ih =>
    unfold windowOf at ih ⊢
    rw [List.foldl_append, List.foldl_cons, List.foldl_nil, ih,
      recordToolCall_lastN, List.map_append]
    rfl

/-- Rewriting of `is_redundant_call` as a Boolean formula over the window. -/
theorem isRedundantCall_eq (w : RecentCalls) (name : String) (args : PyDict) :
    isRedundantCall w name args
      = (((name = "ls" : Bool) && w.any (fun c => c.1 = "ls"))
          || w.any (recordEq (toRecord name args))) := by
  unfold isRedundantCall
  split
  · next h => simp [h]
  · next h => simp [eq_false_of_ne_true h]

/-- A protected call of a confirmation-requiring tool contributes an
entry: `protEntry` cannot return `none` for it. -/
theorem protEntry_isSome {tools : List Tool} {s : String} {tool : Tool}
    {args : PyVal} {e? : Option (String × PermissionPath)}
    (hfind : findTool tools s = some tool)
    (hreq : tool.requiresConfirmation = true)
    (h : protEntry tools (.str s) args = .ok e?) : e?.isSome = true := by
  cases args with
  | dict argd =>
    simp only [protEntry, hfind, hreq, if_true] at h
    by_cases hb : (decide (s = "bash") && dictHas argd "command") = true
    · rw [if_pos hb] at h
      cases h
      rfl
    · rw [if_neg hb] at h
      rcases hf : argd.find? (fun kv =>
          (kv.2.isStr && (kv.1 = "path" || kv.1 = "file_path") : Bool)) with _ | ⟨k, v⟩
      · rw [hf] at h
        cases h
        rfl
      · rw [hf] at h
        cases v <;> cases h <;> rfl
  | str s' => simp only [protEntry, hfind, hreq, if_true] at h; exact (Except.noConfusion h)
  | int n => simp only [protEntry, hfind, hreq, if_true] at h; exact (Except.noConfusion h)
  | bool b => simp only [protEntry, hfind, hreq, if_true] at h; exact (Except.noConfusion h)
  | null => simp only [protEntry, hfind, hreq, if_true] at h; exact (Except.noConfusion h)
  | list xs => simp only [protEntry, hfind, hreq, if_true] at h; exact (Except.noConfusion h)

/-- If the protected scan succeeds and some normalized call's tool
requires confirmation, the protected list is nonempty. -/
theorem protectedScan_ne_nil (tools : List Tool) :
    ∀ (l : List Normalized) (ps : List (String × PermissionPath)),
      protectedScan tools l = .ok ps →
      (∃ c ∈ l, ∃ (s : String) (tool : Tool), c.2.1 = PyVal.str s ∧
        findTool tools s = some tool ∧ tool.requiresConfirmation = true) →
      ps ≠ []
  | [], _, _, hex => by simp at hex
  | (cid, tn, args) :: rest, ps, h, hex => by
    unfold protectedScan at h
    rcases hpe : protEntry tools tn args with e | e?
    · rw [hpe] at h
      cases h
    · rw [hpe] at h
      rcases hps : protectedScan tools rest with e | rest'
      · rw [hps] at h
        cases h
      · rw [hps] at h
        rcases hex with ⟨c, hc, s, tool, hshape, hfind, hreq⟩
        rcases List.mem_cons.mp hc with rfl | hmem
        · simp only at hshape
          subst hshape
          have hs := protEntry_isSome hfind hreq hpe
          rcases e? with _ | e
          · cases hs
          · cases h
            simp
        · have hne : rest' ≠ [] :=
            protectedScan_ne_nil tools rest rest' hps ⟨c, hmem, s, tool, hshape, hfind, hreq⟩
          cases h
          rcases e? with _ | e
          · simpa using hne
          · simp

/-- A cache key is present iff some entry carries it. -/
theorem cacheLookup_isSome_iff (c : TokenCache) (k : String × String) :
    (cacheLookup c k).isSome = true ↔ ∃ e ∈ c, e.1 = k := by
  simp [cacheLookup, List.find?_isSome]

/-- Key presence after a cache insertion. -/
theorem cacheInsert_isSome (c : TokenCache) (k' k : String × String) (q : ℚ) :
    (cacheLookup (cacheInsert c k' q) k).isSome = true ↔
      ((cacheLookup c k).isSome = true ∨ k = k') := by
  unfold cacheInsert
  by_cases h : (cacheLookup c k').isSome = true
  · rw [if_pos h]
    simp only [cacheLookup_isSome_iff] at h ⊢
    constructor
    · rintro ⟨e, he, hk⟩
      obtain ⟨e₀, he₀, rfl⟩ := List.mem_map.mp he
      by_cases h₀ : e₀.1 = k'
      · simp only [h₀, if_pos] at hk
        exact Or.inr hk.symm
      · simp only [h₀, if_neg, if_false] at hk
        exact Or.inl ⟨e₀, he₀, hk⟩
    · rintro (⟨e, he, hk⟩ | rfl)
      · by_cases h₀ : e.1 = k'
        · obtain ⟨e₁, he₁, hk₁⟩ := h
          exact ⟨(k', q), List.mem_map.mpr ⟨e₁, he₁, by simp [hk₁]⟩, by rw [← h₀, hk]⟩
        · exact ⟨e, List.mem_map.mpr ⟨e, he, by simp [h₀]⟩, by simp [h₀, hk]⟩
      · obtain ⟨e₁, he₁, hk₁⟩ := h
        exact ⟨(k, q), List.mem_map.mpr ⟨e₁, he₁, by simp [hk₁]⟩, rfl⟩
  · rw [if_neg h]
    simp only [cacheLookup_isSome_iff] at h ⊢
    constructor
    · rintro ⟨e, he, hk⟩
      rcases List.mem_append.mp he with he | he
      · exact Or.inl ⟨e, he, hk⟩
      · simp at he
        subst he
        exact Or.inr hk.symm
    · rintro (⟨e, he, hk⟩ | rfl)
      · exact ⟨e, List.mem_append.mpr (Or.inl he), hk⟩
      · exact ⟨(k, q), List.mem_append.mpr (Or.inr (by simp)), rfl⟩

/-- The estimation loop never evicts a cached key. -/
theorem estimateTokensAux_cache_mono (k : String × String) :
    ∀ (msgs : List Message) (c : TokenCache),
      (cacheLookup c k).isSome = true →
      (cacheLookup (estimateTokensAux c msgs).2 k).isSome = true
  | [], _, h => h
  | m :: rest, c, h => by
    rcases hk : cacheKey m with _ | k'
    · rcases haux : estimateTokensAux c rest with ⟨t, c'⟩
      have := estimateTokensAux_cache_mono k rest c h
      rw [haux] at this
      simp only [estimateTokensAux, hk, haux]
      exact this
    · rcases hl : cacheLookup c k' with _ | q
      · rcases haux : estimateTokensAux (cacheInsert c k' (messageTokens m)) rest
          with ⟨t, c'⟩
        have hins : (cacheLookup (cacheInsert c k' (messageTokens m)) k).isSome
            = true := (cacheInsert_isSome c k' k _).mpr (Or.inl h)
        have := estimateTokensAux_cache_mono k rest _ hins
        rw [haux] at this
        simp only [estimateTokensAux, hk, hl, haux]
        exact this
      · rcases haux : estimateTokensAux c rest with ⟨t, c'⟩
        have := estimateTokensAux_cache_mono k rest c h
        rw [haux] at this
        simp only [estimateTokensAux, hk, hl, haux]
        exact this

/-- After the loop processes a message with cache key `k`, the key is
in the cache. -/
theorem estimateTokensAux_key_present (k : String × String) :
    ∀ (msgs : List Message) (m : Message), m ∈ msgs → cacheKey m = some k →
      ∀ c : TokenCache, (cacheLookup (estimateTokensAux c msgs).2 k).isSome = true
  | [], _, hm, _ => by simp at hm
  | m' :: rest, m, hm, hk => by
    intro c
    rcases List.mem_cons.mp hm with rfl | hmem
    · rcases hl : cacheLookup c k with _ | q
      · rcases haux : estimateTokensAux (cacheInsert c k (messageTokens m)) rest
          with ⟨t, c'⟩
        have hins : (cacheLookup (cacheInsert c k (messageTokens m)) k).isSome
            = true := (cacheInsert_isSome c k k _).mpr (Or.inr rfl)
        have := estimateTokensAux_cache_mono k rest _ hins
        rw [haux] at this
        simp only [estimateTokensAux, hk, hl, haux]
        exact this
      · have hsome : (cacheLookup c k).isSome = true := by rw [hl]; rfl
        rcases haux : estimateTokensAux c rest with ⟨t, c'⟩
        have := estimateTokensAux_cache_mono k rest c hsome
        rw [haux] at this
        simp only [estimateTokensAux, hk, hl, haux]
        exact this
    · rcases hk' : cacheKey m' with _ | k'
      · rcases haux : estimateTokensAux c rest with ⟨t, c'⟩
        have := estimateTokensAux_key_present k rest m hmem hk c
        rw [haux] at this
        simp only [estimateTokensAux, hk', haux]
        exact this
      · rcases hl : cacheLookup c k' with _ | q
        · rcases haux : estimateTokensAux (cacheInsert c k' (messageTokens m')) rest
            with ⟨t, c'⟩
          have := estimateTokensAux_key_present k rest m hmem hk
            (cacheInsert c k' (messageTokens m'))
          rw [haux] at this
          simp only [estimateTokensAux, hk', hl, haux]
          exact this
        · rcases haux : estimateTokensAux c rest with ⟨t, c'⟩
          have := estimateTokensAux_key_present k rest m hmem hk c
          rw [haux] at this
          simp only [estimateTokensAux, hk', hl, haux]
          exact this

/-- The estimation loop splits over list append. -/
theorem estimateTokensAux_append :
    ∀ (xs ys : List Message) (c : TokenCache),
      estimateTokensAux c (xs ++ ys)
        = ((estimateTokensAux c xs).1
            + (estimateTokensAux (estimateTokensAux c xs).2 ys).1,
           (estimateTokensAux (estimateTokensAux c xs).2 ys).2)
  | [], ys, c => by simp [estimateTokensAux]
  | m :: xs, ys, c => by
    rcases hk : cacheKey m with _ | k
    · rcases haux : estimateTokensAux c (xs ++ ys) with ⟨t, c'⟩
      rcases haux₂ : estimateTokensAux c xs with ⟨t₂, c₂⟩
      have ih := estimateTokensAux_append xs ys c
      rw [haux, haux₂] at ih
      simp only [List.cons_append, estimateTokensAux, hk, haux, haux₂]
      simp [ih, add_assoc]
      rw [haux]
      simpa using ih
    · rcases hl : cacheLookup c k with _ | q
      · rcases haux : estimateTokensAux (cacheInsert c k (messageTokens m)) (xs ++ ys)
          with ⟨t, c'⟩
        rcases haux₂ : estimateTokensAux (cacheInsert c k (messageTokens m)) xs
          with ⟨t₂, c₂⟩
        have ih := estimateTokensAux_append xs ys (cacheInsert c k (messageTokens m))
        rw [haux, haux₂] at ih
        simp only [List.cons_append, estimateTokensAux, hk, hl, haux, haux₂]
        simp [ih, add_assoc]
        rw [haux]
        simpa using ih
      · rcases haux : estimateTokensAux c (xs ++ ys) with ⟨t, c'⟩
        rcases haux₂ : estimateTokensAux c xs with ⟨t₂, c₂⟩
        have ih := estimateTokensAux_append xs ys c
        rw [haux, haux₂] at ih
        simp only [List.cons_append, estimateTokensAux, hk, hl, haux, haux₂]
        simp [ih, add_assoc]
        rw [haux]
        simpa using ih

/-- The callId of a normalized call is the model-supplied id, or the
generated `auto-id-<timestamp>` when absent. -/
theorem normalizeNew_callId {now : Int} {tc : PyDict} {out : Normalized}
    (h : normalizeNew now tc = .ok out) :
    out.1 = (dictGet tc "id").getD (.str ("auto-id-" ++ toString now)) := by
  simp only [normalizeNew] at h
  split at h
  · split at h
    · cases h
      rfl
    · exact Except.noConfusion h
  · exact Except.noConfusion h

/-- The ids of a batch's normalized calls form a sublist of the
per-raw-call ids (supplied or generated). -/
theorem normalized_ids_sublist (now : Int) :
    ∀ tcs : List PyDict,
      ((normalizedCallsOf now tcs).map (fun c => c.1)).Sublist
        (tcs.map (fun tc => (dictGet tc "id").getD (.str ("auto-id-" ++ toString now))))
  | [] => by simp [normalizedCallsOf]
  | tc :: rest => by
    rcases hn : normalizeNew now tc with e | ⟨cid, tn, args⟩
    · simp only [normalizedCallsOf, hn]
      exact (normalized_ids_sublist now rest).cons _
    · simp only [normalizedCallsOf, hn]
      by_cases ht : tn.truthy = true
      · rw [if_pos ht]
        simp only [List.map_cons]
        have hid : cid = (dictGet tc "id").getD (.str ("auto-id-" ++ toString now)) :=
          normalizeNew_callId hn
        rw [hid]
        exact (normalized_ids_sublist now rest).cons₂ _
      · rw [if_neg ht]
        exact (normalized_ids_sublist now rest).cons _

/-- Totality: `execute_tool` on a string tool name and dict arguments never
raises: every outcome is a returned result dict. -/
theorem executeTool_isOk (tools : List Tool)
    (permission : String → PyDict → Option String → Bool)
    (recent : RecentCalls) (s : String) (argd : PyDict)
    (ccm : Bool) (bid : Option String) :
    ∃ out, executeTool tools permission recent (.str s) (.dict argd) ccm bid
      = .ok out := by
  simp only [executeTool]
  rcases hf : findTool tools s with _ | tool
  · exact ⟨_, rfl⟩
  · dsimp only
    by_cases hr : isRedundantCall recent tool.name argd = true
    · rw [if_pos hr]
      exact ⟨_, rfl⟩
    · rw [if_neg hr]
      by_cases hp : (tool.requiresConfirmation && !permission tool.name argd bid) = true
      · rw [if_pos hp]
        exact ⟨_, rfl⟩
      · rw [if_neg hp]
        rcases he : tool.execute argd with exc | r
        · rcases exc with m | m <;> exact ⟨_, rfl⟩
        · exact ⟨_, rfl⟩

/-- Over a batch of string-named, dict-argument calls, the executor
phase appends exactly one tool message per call. -/
theorem foldl_runOneCall_length (tools : List Tool)
    (permission : String → PyDict → Option String → Bool)
    (ccm : Bool) (bid : Option String) :
    ∀ (calls : List Normalized) (st : DispatchState),
      (∀ c ∈ calls, ExecShapeOk c) →
      (calls.foldl (runOneCall tools permission ccm bid) st).messages.length
        = st.messages.length + calls.length
  | [], st, _ => by simp
  | c :: rest, st, hshape => by
    obtain ⟨⟨s, hs⟩, ⟨d, hd⟩⟩ := hshape c (List.mem_cons_self _ _)
    rcases c with ⟨cid, tn, args⟩
    simp only at hs hd
    subst hs hd
    obtain ⟨out, hout⟩ := executeTool_isOk tools permission st.recent s d ccm bid
    simp only [List.foldl_cons, runOneCall, hout]
    rw [foldl_runOneCall_length tools permission ccm bid rest _
      (fun c hc => hshape c (List.mem_cons_of_mem _ hc))]
    simp
    omega

/-- The argument fallback chain does not consult its failure handler
when the payload is a native dict or a string some JSON parse accepts. -/
theorem parseArguments_congr (v : PyVal) (f g : String → PyVal)
    (h : (∃ dd, v = PyVal.dict dd)
      ∨ (∃ s, v = PyVal.str s ∧ ((jsonLoads s).isSome = true
          ∨ (jsonLoads (replaceChar s '\'' '\"')).isSome = true))) :
    parseArguments v f = parseArguments v g := by
  rcases h with ⟨dd, rfl⟩ | ⟨s, rfl, hp⟩
  · rfl
  · simp only [parseArguments]
    rcases hj : jsonLoads s with _ | w
    · rcases hj2 : jsonLoads (replaceChar s '\'' '\"') with _ | w2
      · rcases hp with h1 | h2
        · rw [hj] at h1
          exact absurd h1 (by simp)
        · rw [hj2] at h2
          exact absurd h2 (by simp)
      · rfl
    · rfl

/-- The estimate of a single message under an empty cache is its fresh
per-message count. -/
theorem estimateTokens_singleton (m : Message) :
    (estimateTokens [] [m]).1 = max 1 ⌊messageTokens m⌋ := by
  rcases hk : cacheKey m with _ | k
  · simp [estimateTokens, estimateTokensAux, hk]
  · simp [estimateTokens, estimateTokensAux, hk, cacheLookup]

/-! ## Claims -/

/-- C1: the claim that the request-in-progress flag is False on every
exit path of a turn is refuted by the code: a `KeyboardInterrupt`
raised while the follow-up model request of `process_llm_response` is
in flight is caught by the handler at agent/agent.py lines 227–231,
which does not clear the flag, so the turn returns to awaiting user
input with `request_in_progress` still set; by contrast the sentinel
interrupt path does clear it.  The spec (and the code's own "Make
absolutely sure the flag is cleared" comments on the other paths) make
the clearing clearly the intent, so this is a code bug. -/
theorem c1_flag_left_set_on_followup_keyboard_interrupt :
    (runConversationTurn 0 [.resp probeResponse, .kbInterrupt]
        ⟨[], false⟩ "list files").requestInProgress = true
    ∧ (runConversationTurn 0 [.resp probeResponse, .resp sentinelResponse]
        ⟨[], false⟩ "list files").requestInProgress = false :=
  ⟨rfl, rfl⟩

/-- C2: when at least one normalized call of a parallel batch has a
known confirmation-requiring tool and the consolidated batch approval
is denied, the dispatcher returns with no tool executed and the message
log unchanged. -/
theorem c2_parallel_denial_executes_nothing
    (now : Int) (tools : List Tool)
    (permission : String → PyDict → Option String → Bool)
    (checkContextMsg : Bool) (recent : RecentCalls) (msgs : List Message)
    (toolCalls : List PyDict) (ps : List (String × PermissionPath))
    (hscan : protectedScan tools (normalizedCallsOf now toolCalls) = .ok ps)
    (hconf : ∃ c ∈ normalizedCallsOf now toolCalls, ∃ (s : String) (tool : Tool),
      c.2.1 = PyVal.str s ∧ findTool tools s = some tool ∧
      tool.requiresConfirmation = true) :
    processParallelToolCalls now tools permission false checkContextMsg
      recent msgs toolCalls = .ok ⟨recent, msgs, []⟩ := by
  have hne : ps ≠ [] :=
    protectedScan_ne_nil tools (normalizedCallsOf now toolCalls) ps hscan hconf
  have hemp : ps.isEmpty = false := by
    cases ps with
    | nil => exact absurd rfl hne
    | cons a l => rfl
  simp only [processParallelToolCalls, hscan, hemp, Bool.not_false, Bool.and_true,
    Bool.not_true, if_true]

/-- C2 witness: a three-call batch (`bash` requiring confirmation plus
two `glob` calls) under a denied approval leaves the log untouched and
executes nothing. -/
theorem c2_parallel_denial_executes_nothing_witness :
    (protectedScan
        [⟨"bash", true, fun _ => .ok []⟩, ⟨"glob", false, fun _ => .ok []⟩]
        (normalizedCallsOf 7
          [[("id", .str "a"), ("function", .dict [("name", .str "glob"),
              ("arguments", .str "\x7b\x7d")])],
           [("id", .str "b"), ("function", .dict [("name", .str "bash"),
              ("arguments", .dict [("command", .str "ls -la")])])],
           [("id", .str "c"), ("function", .dict [("name", .str "glob"),
              ("arguments", .str "\x7b\x7d")])]])
      = .ok [("bash", PermissionPath.args [("command", .str "ls -la")])])
    ∧ processParallelToolCalls 7
        [⟨"bash", true, fun _ => .ok []⟩, ⟨"glob", false, fun _ => .ok []⟩]
        (fun _ _ _ => true) false true [] []
        [[("id", .str "a"), ("function", .dict [("name", .str "glob"),
            ("arguments", .str "\x7b\x7d")])],
         [("id", .str "b"), ("function", .dict [("name", .str "bash"),
            ("arguments", .dict [("command", .str "ls -la")])])],
         [("id", .str "c"), ("function", .dict [("name", .str "glob"),
            ("arguments", .str "\x7b\x7d")])]]
      = .ok ⟨[], [], []⟩ := by
  refine ⟨rfl, ?_⟩
  exact c2_parallel_denial_executes_nothing 7 _ _ true [] [] _ _ rfl
    ⟨(.str "b", .str "bash", .dict [("command", .str "ls -la")]),
      List.mem_cons_of_mem _ (List.mem_cons_self _ _),
      "bash", ⟨"bash", true, fun _ => .ok []⟩, rfl, rfl, rfl⟩

/-- C3: normalization is total on raw calls of the data model's
`ToolCallRef` shape — every parse failure degrades instead of raising —
and the argument fallback chain yields `{"a": 1}` for the single-quoted
text `"{'a': 1}"` and `{"raw_args": "x=1"}` for the unparsable text
`"x=1"`. -/
theorem c3_normalize_total_and_fallbacks :
    (∀ (now : Int) (tc : PyDict), RawCallShapeOk tc →
      ∃ out, normalizeNew now tc = .ok out)
    ∧ (∀ now : Int, normalizeNew now singleQuotedArgsCall
        = .ok (.str "call-1", .str "file_read", .dict [("a", .int 1)]))
    ∧ (∀ now : Int, normalizeNew now unparsableArgsCall
        = .ok (.str "call-7", .str "file_read", .dict [("raw_args", .str "x=1")])) := by
  refine ⟨?_, fun _ => rfl, fun _ => rfl⟩
  intro now tc h
  obtain ⟨hf, hfa, hta⟩ := h
  have hpayload : ∀ (P : PyDict), ArgsShapeOk P →
      ∃ out, (match parseArguments ((dictGet P "arguments").getD (.str "\x7b\x7d"))
          (fun s => PyVal.dict [("raw_args", .str s)]) with
        | .ok arguments =>
          Except.ok ((dictGet tc "id").getD (.str ("auto-id-" ++ toString now)),
            (dictGet P "name").getD (.str ""), arguments)
        | .error e => Except.error e) = Except.ok out := by
    intro P hP
    have hargs : (∃ s, (dictGet P "arguments").getD (.str "\x7b\x7d") = PyVal.str s)
        ∨ (∃ d, (dictGet P "arguments").getD (.str "\x7b\x7d") = PyVal.dict d) := by
      cases hget : dictGet P "arguments" with
      | none => exact Or.inl ⟨"\x7b\x7d", rfl⟩
      | some v =>
        rcases hP v hget with ⟨s, rfl⟩ | ⟨d, rfl⟩
        · exact Or.inl ⟨s, rfl⟩
        · exact Or.inr ⟨d, rfl⟩
    obtain ⟨a, ha⟩ := parseArguments_isOk _ _
      (by rcases hargs with ⟨s, hs⟩ | ⟨d, hd⟩
          · exact Or.inl ⟨s, hs⟩
          · exact Or.inr ⟨d, hd⟩)
    exact ⟨_, by rw [ha]⟩
  unfold normalizeNew
  cases hfn : dictGet tc "function" with
  | none =>
    simp only [hfn, Option.getD]
    by_cases hn : dictHas tc "name" = true
    · simp only [PyVal.truthy, List.isEmpty_nil, Bool.not_false, Bool.true_and, hn, if_pos]
      exact hpayload tc hta
    · simp only [PyVal.truthy, List.isEmpty_nil, Bool.not_false, Bool.true_and, hn,
        Bool.false_eq_true, if_false]
      exact hpayload [] (by intro v hv; simp [dictGet] at hv)
  | some v =>
    obtain ⟨d, rfl⟩ := hf v hfn
    simp only [hfn, Option.getD]
    by_cases hcond : (!(PyVal.dict d).truthy && dictHas tc "name") = true
    · simp only [hcond, if_pos]
      exact hpayload tc hta
    · simp only [hcond, Bool.false_eq_true, if_false]
      exact hpayload d (hfa d hfn)

/-- C3 witness: the shape hypothesis holds for the single-quoted probe
call, and the theorem applied there gives a normal result. -/
theorem c3_normalize_total_witness :
    RawCallShapeOk singleQuotedArgsCall
    ∧ ∃ out, normalizeNew 0 singleQuotedArgsCall = .ok out := by
  have hshape : RawCallShapeOk singleQuotedArgsCall := by
    refine ⟨?_, ?_, ?_⟩
    · intro v hv
      simp [singleQuotedArgsCall, dictGet] at hv
      exact ⟨_, hv.symm⟩
    · intro d hd v hv
      simp [singleQuotedArgsCall, dictGet] at hd
      subst hd
      simp [dictGet] at hv
      exact Or.inl ⟨_, hv.symm⟩
    · intro v hv
      simp [singleQuotedArgsCall, dictGet] at hv
  exact ⟨hshape, c3_normalize_total_and_fallbacks.1 0 singleQuotedArgsCall hshape⟩

/-- C4: `is_redundant_call` over the window maintained by
`record_tool_call` holds iff the exact record occurs among the 5 most
recently recorded calls, or the name is `ls` and any windowed record
used `ls`; consequently a second `ls` call with different arguments is
flagged after the first (which is not), an identical `file_read` call
is flagged only on its second occurrence, and a record evicted by 5
subsequent distinct recorded calls is no longer flagged. -/
theorem c4_redundancy_window_characterization :
    (∀ (hist : List (String × PyDict)) (name : String) (args : PyDict),
      isRedundantCall (windowOf hist) name args = true ↔
        ((∃ r ∈ lastN 5 (hist.map fun p => toRecord p.1 p.2),
            recordEq (toRecord name args) r = true)
          ∨ (name = "ls"
              ∧ ∃ r ∈ lastN 5 (hist.map fun p => toRecord p.1 p.2), r.1 = "ls")))
    ∧ (∀ a₁ a₂ : PyDict, isRedundantCall (windowOf []) "ls" a₁ = false
        ∧ isRedundantCall (windowOf [("ls", a₁)]) "ls" a₂ = true)
    ∧ (∀ a : PyDict, isRedundantCall (windowOf []) "file_read" a = false
        ∧ isRedundantCall (windowOf [("file_read", a)]) "file_read" a = true)
    ∧ (∀ (n : String) (a : PyDict) (others : List (String × PyDict)),
        others.length = 5 →
        (∀ o ∈ others, recordEq (toRecord n a) (toRecord o.1 o.2) = false) →
        (n = "ls" → ∀ o ∈ others, o.1 ≠ "ls") →
        isRedundantCall (windowOf ((n, a) :: others)) n a = false) := by
  have hchar : ∀ (hist : List (String × PyDict)) (name : String) (args : PyDict),
      isRedundantCall (windowOf hist) name args = true ↔
        ((∃ r ∈ lastN 5 (hist.map fun p => toRecord p.1 p.2),
            recordEq (toRecord name args) r = true)
          ∨ (name = "ls"
              ∧ ∃ r ∈ lastN 5 (hist.map fun p => toRecord p.1 p.2), r.1 = "ls")) := by
    intro hist name args
    rw [windowOf_eq, isRedundantCall_eq]
    show (_ : Bool) = true ↔ _
    rw [Bool.or_eq_true, Bool.and_eq_true]
    simp only [List.any_eq_true, decide_eq_true_eq]
    constructor
    · rintro (⟨h₁, r, hr, h₂⟩ | ⟨r, hr, h₂⟩)
      · exact Or.inr ⟨h₁, r, hr, h₂⟩
      · exact Or.inl ⟨r, hr, h₂⟩
    · rintro (⟨r, hr, h₂⟩ | ⟨h₁, r, hr, h₂⟩)
      · exact Or.inr ⟨r, hr, h₂⟩
      · exact Or.inl ⟨h₁, r, hr, h₂⟩
  refine ⟨hchar, fun a₁ a₂ => ⟨rfl, rfl⟩, ?_, ?_⟩
  · intro a
    refine ⟨rfl, ?_⟩
    have hw : windowOf [("file_read", a)] = [toRecord "file_read" a] := rfl
    rw [hw, isRedundantCall_eq]
    simp [recordEq_refl]
  · intro n a others hlen hno hls
    have hdrop : lastN 5 (((n, a) :: others).map fun p => toRecord p.1 p.2)
        = others.map fun p => toRecord p.1 p.2 := by
      simp [lastN, hlen]
    rw [Bool.eq_false_iff, Ne, hchar, hdrop]
    rintro (⟨r, hr, h₂⟩ | ⟨h₁, r, hr, h₂⟩)
    · obtain ⟨o, ho, rfl⟩ := List.mem_map.mp hr
      exact absurd h₂ (by simp [hno o ho])
    · obtain ⟨o, ho, rfl⟩ := List.mem_map.mp hr
      exact absurd h₂ (by simp [toRecord, hls h₁ o ho])

/-- C4 witness: the eviction scenario at a concrete history — a
`file_read(path=/a)` record followed by five distinct recorded calls is
no longer flagged — together with the discharged hypotheses. -/
theorem c4_redundancy_window_witness :
    ([("t1", []), ("t2", []), ("t3", []), ("t4", []),
        ("t5", [])] : List (String × PyDict)).length = 5
    ∧ (∀ o ∈ ([("t1", []), ("t2", []), ("t3", []), ("t4", []),
        ("t5", [])] : List (String × PyDict)),
        recordEq (toRecord "file_read" [("path", .str "/a")])
          (toRecord o.1 o.2) = false)
    ∧ isRedundantCall
        (windowOf (("file_read", [("path", .str "/a")])
          :: [("t1", []), ("t2", []), ("t3", []), ("t4", []), ("t5", [])]))
        "file_read" [("path", .str "/a")] = false := by
  refine ⟨rfl, ?_, ?_⟩
  · intro o ho
    fin_cases ho <;> rfl
  · exact c4_redundancy_window_characterization.2.2.2 "file_read"
      [("path", .str "/a")]
      [("t1", []), ("t2", []), ("t3", []), ("t4", []), ("t5", [])]
      rfl
      (by intro o ho; fin_cases ho <;> rfl)
      (by intro h; exact absurd h (by decide))

/-- C5: for every known tool (not only `ls`), a redundant call makes
`execute_tool` short-circuit without invoking the tool or touching the
window, returning `success: false` with the "Redundant call to <name>.
Directory was already shown." message, plus the context-check suffix
when enabled. -/
theorem c5_redundant_call_short_circuits
    (tools : List Tool) (permission : String → PyDict → Option String → Bool)
    (recent : RecentCalls) (name : String) (args : PyDict)
    (ccm : Bool) (bid : Option String) (tool : Tool)
    (hfind : findTool tools name = some tool)
    (hred : isRedundantCall recent name args = true) :
    executeTool tools permission recent (.str name) (.dict args) ccm bid
      = .ok (mkErrorResult (redundantErrorMsg name ccm), recent, []) := by
  have hn : tool.name = name := findTool_name hfind
  simp [executeTool, hfind, hn, hred]

/-- C5 witness: a pre-recorded `file_read(path=/a)` call makes the next
identical `file_read` call short-circuit with the redundancy error. -/
theorem c5_redundant_call_short_circuits_witness :
    (findTool [⟨"file_read", false, fun _ => .ok []⟩] "file_read"
        = some ⟨"file_read", false, fun _ => .ok []⟩)
    ∧ (isRedundantCall [toRecord "file_read" [("path", .str "/a")]]
        "file_read" [("path", .str "/a")] = true)
    ∧ (executeTool [⟨"file_read", false, fun _ => .ok []⟩] (fun _ _ _ => true)
        [toRecord "file_read" [("path", .str "/a")]]
        (.str "file_read") (.dict [("path", .str "/a")]) true none
      = .ok (mkErrorResult (redundantErrorMsg "file_read" true),
          [toRecord "file_read" [("path", .str "/a")]], [])) :=
  ⟨rfl, rfl,
    c5_redundant_call_short_circuits _ _ _ _ _ _ _ _ rfl rfl⟩

/-- C6: compacting a log of one system message followed by 10
alternating user/assistant messages yields exactly [system, first user,
compaction notice, last 6 messages] — 9 messages — and compacting any
log of fewer than 4 messages returns it unchanged. -/
theorem c6_compaction_shape :
    (∀ (notice : String) (m0 m1 m2 m3 m4 m5 m6 m7 m8 m9 m10 : Message),
      m0.role = some "system" → m1.role = some "user" →
      m2.role = some "assistant" → m3.role = some "user" →
      m4.role = some "assistant" → m5.role = some "user" →
      m6.role = some "assistant" → m7.role = some "user" →
      m8.role = some "assistant" → m9.role = some "user" →
      m10.role = some "assistant" →
      compactConversation notice [m0, m1, m2, m3, m4, m5, m6, m7, m8, m9, m10]
        = [m0, m1, { role := some "system", content := some notice },
           m5, m6, m7, m8, m9, m10])
    ∧ (∀ (notice : String) (msgs : List Message), msgs.length < 4 →
        compactConversation notice msgs = msgs) := by
  constructor
  · intro notice m0 m1 m2 m3 m4 m5 m6 m7 m8 m9 m10
      h0 h1 h2 h3 h4 h5 h6 h7 h8 h9 h10
    simp [compactConversation, List.find?, h0, h1, h2, h3, h4, h5, h6, h7,
      h8, h9, h10]
  · intro notice msgs h
    unfold compactConversation
    rw [if_pos h]

/-- C6 witness: the shape theorem applied to a concrete 11-message log,
and the no-op branch applied to a concrete 3-message log. -/
theorem c6_compaction_shape_witness :
    (compactConversation "N"
        [{ role := some "system", content := some "s" },
         { role := some "user", content := some "u1" },
         { role := some "assistant", content := some "a1" },
         { role := some "user", content := some "u2" },
         { role := some "assistant", content := some "a2" },
         { role := some "user", content := some "u3" },
         { role := some "assistant", content := some "a3" },
         { role := some "user", content := some "u4" },
         { role := some "assistant", content := some "a4" },
         { role := some "user", content := some "u5" },
         { role := some "assistant", content := some "a5" }]
      = [{ role := some "system", content := some "s" },
         { role := some "user", content := some "u1" },
         { role := some "system", content := some "N" },
         { role := some "user", content := some "u3" },
         { role := some "assistant", content := some "a3" },
         { role := some "user", content := some "u4" },
         { role := some "assistant", content := some "a4" },
         { role := some "user", content := some "u5" },
         { role := some "assistant", content := some "a5" }])
    ∧ ([{ role := some "system", content := some "s" },
        { role := some "user", content := some "u" },
        { role := some "assistant", content := some "a" }] : List Message).length < 4
    ∧ (compactConversation "N"
        [{ role := some "system", content := some "s" },
         { role := some "user", content := some "u" },
         { role := some "assistant", content := some "a" }]
      = [{ role := some "system", content := some "s" },
         { role := some "user", content := some "u" },
         { role := some "assistant", content := some "a" }]) :=
  ⟨c6_compaction_shape.1 "N" _ _ _ _ _ _ _ _ _ _ _
      rfl rfl rfl rfl rfl rfl rfl rfl rfl rfl rfl,
   by decide,
   c6_compaction_shape.2 "N" _ (by decide)⟩

/-- C7 counterexample: the claim's per-message formula charges only the
*argument* payloads of `function_call`/`tool_calls`, but the code also
charges `len(function_call["name"]) / 4`: on a message with an empty
content, a 4-character function name and empty arguments, the code
yields 6 tokens while the claim's formula yields 5. -/
theorem c7_name_charge_counterexample :
    (estimateTokens [] [namedFunctionCallMsg]).1 = 6
    ∧ max 1 ⌊claimedMessageTokens namedFunctionCallMsg⌋ = 5 := by
  have hgn : dictGet [("name", PyVal.str "abcd"), ("arguments", PyVal.str "")]
      "name" = some (.str "abcd") := rfl
  have hga : dictGet [("name", PyVal.str "abcd"), ("arguments", PyVal.str "")]
      "arguments" = some (.str "") := rfl
  have hl4 : ("abcd" : String).length = 4 := rfl
  have hl0 : ("" : String).length = 0 := rfl
  constructor
  · rw [estimateTokens_singleton]
    have h : messageTokens namedFunctionCallMsg = 6 := by
      norm_num [messageTokens, functionCallTokens, pyLen, namedFunctionCallMsg,
        hgn, hga, hl4, hl0]
    rw [h]
    norm_num
  · norm_num [claimedMessageTokens, serializeToText, namedFunctionCallMsg, hga, hl0]

/-- C7 (amended): per message the estimator charges 4 for structure, 1
for a present role, `len(content)/4` for truthy content, and — for a
`function_call` — `len(name)/4` *plus* `len(arguments)/4` (the name too,
not only the argument payload); results are cached keyed by
`(role, content)`, so any message repeating an earlier message's role
and content contributes the cached count regardless of its attached
payloads. -/
theorem c7_estimate_formula_and_cache :
    (∀ m : Message, (estimateTokens [] [m]).1 = max 1 ⌊messageTokens m⌋)
    ∧ (∀ (r c fn fa : String), c ≠ "" →
        (estimateTokens [] [fcProbeMsg r c fn fa]).1
          = max 1 ⌊4 + 1 + (c.length : ℚ) / 4 + (fn.length : ℚ) / 4
              + (fa.length : ℚ) / 4⌋)
    ∧ (∀ (pre post : List Message) (m₁ m₂ m₂' : Message) (k : String × String),
        m₁ ∈ pre → cacheKey m₁ = some k → cacheKey m₂ = some k →
        cacheKey m₂' = some k →
        (estimateTokens [] (pre ++ m₂ :: post)).1
          = (estimateTokens [] (pre ++ m₂' :: post)).1) := by
  refine ⟨estimateTokens_singleton, ?_, ?_⟩
  · intro r c fn fa hc
    rw [estimateTokens_singleton]
    have hgn : dictGet [("name", PyVal.str fn), ("arguments", PyVal.str fa)]
        "name" = some (.str fn) := rfl
    have hga : dictGet [("name", PyVal.str fn), ("arguments", PyVal.str fa)]
        "arguments" = some (.str fa) := rfl
    have hm : messageTokens (fcProbeMsg r c fn fa)
        = 4 + 1 + (c.length : ℚ) / 4 + (fn.length : ℚ) / 4 + (fa.length : ℚ) / 4 := by
      simp [messageTokens, fcProbeMsg, functionCallTokens, pyLen, hgn, hga, hc]
      ring
    rw [hm]
  · intro pre post m₁ m₂ m₂' k hm hk1 hk2 hk2'
    have hpresent := estimateTokensAux_key_present k pre m₁ hm hk1 []
    rcases hauxpre : estimateTokensAux [] pre with ⟨A, C⟩
    rw [hauxpre] at hpresent
    obtain ⟨q, hq⟩ : ∃ q, cacheLookup C k = some q := by
      rcases hl : cacheLookup C k with _ | q
      · rw [hl] at hpresent
        exact absurd hpresent (by simp)
      · exact ⟨q, rfl⟩
    have happ := estimateTokensAux_append pre (m₂ :: post) []
    have happ' := estimateTokensAux_append pre (m₂' :: post) []
    rw [hauxpre] at happ happ'
    have hhit : estimateTokensAux C (m₂ :: post)
        = (q + (estimateTokensAux C post).1, (estimateTokensAux C post).2) := by
      rcases haux : estimateTokensAux C post with ⟨t, c'⟩
      simp [estimateTokensAux, hk2, hq, haux]
    have hhit' : estimateTokensAux C (m₂' :: post)
        = (q + (estimateTokensAux C post).1, (estimateTokensAux C post).2) := by
      rcases haux : estimateTokensAux C post with ⟨t, c'⟩
      simp [estimateTokensAux, hk2', hq, haux]
    unfold estimateTokens
    rw [happ, happ', hhit, hhit']

/-- C7 witness: the amended formula at the message
`{role: "user", content: "hi", function_call: {name: "ls", arguments:
"x"}}` (charging the name), and the cache consequence at a repeated
`("u", "hello")` key with and without an attached payload. -/
theorem c7_estimate_formula_and_cache_witness :
    (("hi" : String) ≠ ""
      ∧ (estimateTokens [] [fcProbeMsg "user" "hi" "ls" "x"]).1 = 6)
    ∧ (cachedProbePlain ∈ [cachedProbePlain]
      ∧ cacheKey cachedProbePlain = some ("u", "hello")
      ∧ cacheKey cachedProbePayload = some ("u", "hello")
      ∧ (estimateTokens [] [cachedProbePlain, cachedProbePayload]).1
          = (estimateTokens [] [cachedProbePlain, cachedProbePlain]).1) := by
  constructor
  · refine ⟨by decide, ?_⟩
    have h := c7_estimate_formula_and_cache.2.1 "user" "hi" "ls" "x" (by decide)
    rw [h]
    have h2 : ("hi" : String).length = 2 := rfl
    have h1 : ("ls" : String).length = 2 := rfl
    have h0 : ("x" : String).length = 1 := rfl
    rw [h2, h1, h0]
    norm_num
  · refine ⟨List.mem_cons_self _ _, rfl, rfl, ?_⟩
    exact c7_estimate_formula_and_cache.2.2 [cachedProbePlain] []
      cachedProbePlain cachedProbePayload cachedProbePlain ("u", "hello")
      (List.mem_cons_self _ _) rfl rfl rfl

/-- C8 counterexample: the id generation scheme is
`f"auto-id-{int(time.time())}"` with no call index, so two distinct
calls of one batch that both lack a model-supplied id receive the SAME
generated callId when normalized within the same second. -/
theorem c8_generated_ids_collide :
    ((normalizedCallsOf 0 [idlessCallA, idlessCallB]).map (fun c => c.1)
      = [.str "auto-id-0", .str "auto-id-0"])
    ∧ ((normalizedCallsOf 0 [idlessCallA, idlessCallB]).map (fun c => c.2.1)
      = [.str "a", .str "b"]) :=
  ⟨rfl, rfl⟩

/-- C8 (amended): callId uniqueness within a batch holds whenever the
model supplies the ids (the normalized ids are a sublist of the
supplied ones, so pairwise-distinct supplied ids stay pairwise
distinct); generated ids share the batch timestamp and can collide, but
a collision never silently overwrites one call's result with another's:
the dispatcher appends one tool message per executed call, keyed by
position in the log, not by id. -/
theorem c8_batch_ids_amended :
    (∀ (now : Int) (tcs : List PyDict),
      (tcs.map (fun tc => (dictGet tc "id").getD
          (.str ("auto-id-" ++ toString now)))).Nodup →
      ((normalizedCallsOf now tcs).map (fun c => c.1)).Nodup)
    ∧ (∀ (now : Int) (tools : List Tool)
        (permission : String → PyDict → Option String → Bool)
        (ccm : Bool) (recent : RecentCalls) (msgs : List Message)
        (tcs : List PyDict) (st : DispatchState),
        processParallelToolCalls now tools permission true ccm recent msgs tcs
          = .ok st →
        (∀ c ∈ normalizedCallsOf now tcs, ExecShapeOk c) →
        st.messages.length = msgs.length + (normalizedCallsOf now tcs).length) := by
  constructor
  · intro now tcs hnd
    exact (normalized_ids_sublist now tcs).nodup hnd
  · intro now tools permission ccm recent msgs tcs st hok hshape
    rcases hsc : protectedScan tools (normalizedCallsOf now tcs) with e | ps
    · simp only [processParallelToolCalls, hsc] at hok
      exact Except.noConfusion hok
    · simp only [processParallelToolCalls, hsc, Bool.not_true, Bool.and_false,
        Bool.false_eq_true, if_false] at hok
      by_cases hne : (normalizedCallsOf now tcs).isEmpty = true
      · rw [if_pos hne] at hok
        exact Except.noConfusion hok
      · rw [if_neg hne] at hok
        cases hok
        exact foldl_runOneCall_length tools permission ccm
          (some ("parallel-" ++ toString now)) (normalizedCallsOf now tcs)
          ⟨recent, msgs, []⟩ hshape

/-- C8 witness: distinct supplied ids stay distinct through
normalization, and a concrete two-call batch appends exactly two tool
messages (one per call). -/
theorem c8_batch_ids_amended_witness :
    (([[("id", .str "i1"), ("function", .dict [("name", .str "a")])],
        [("id", .str "i2"), ("function", .dict [("name", .str "b")])]].map
          (fun tc => (dictGet tc "id").getD (.str ("auto-id-" ++ toString (0 : Int))))).Nodup
    ∧ ((normalizedCallsOf 0
        [[("id", .str "i1"), ("function", .dict [("name", .str "a")])],
         [("id", .str "i2"), ("function", .dict [("name", .str "b")])]]).map
          (fun c => c.1)).Nodup)
    ∧ ∃ st, processParallelToolCalls 0 [] (fun _ _ _ => true) true true [] []
        [[("id", .str "i1"), ("function", .dict [("name", .str "a")])],
         [("id", .str "i2"), ("function", .dict [("name", .str "b")])]] = .ok st
      ∧ st.messages.length = 0 + 2 := by
  have hnd : ([[("id", .str "i1"), ("function", .dict [("name", .str "a")])],
      [("id", .str "i2"), ("function", .dict [("name", .str "b")])]].map
        (fun tc => (dictGet tc "id").getD
          (.str ("auto-id-" ++ toString (0 : Int))))).Nodup := by
    simp [dictGet, List.find?]
  refine ⟨⟨hnd, c8_batch_ids_amended.1 0 _ hnd⟩, ?_⟩
  refine ⟨_, rfl, ?_⟩
  exact c8_batch_ids_amended.2 0 [] (fun _ _ _ => true) true [] []
    [[("id", .str "i1"), ("function", .dict [("name", .str "a")])],
     [("id", .str "i2"), ("function", .dict [("name", .str "b")])]] _ rfl
    (by intro c hc
        fin_cases hc
        · exact ⟨⟨"a", rfl⟩, ⟨[], rfl⟩⟩
        · exact ⟨⟨"b", rfl⟩, ⟨[], rfl⟩⟩)

/-- C9: with a batch in which every raw call fails to normalize to a
truthy tool name, the parallel dispatcher constructs
`ThreadPoolExecutor(max_workers=min(0, 5))` and raises `ValueError`
instead of returning; a normal return requires at least one normalized
call. -/
theorem c9_parallel_raises_on_empty_normalized_batch
    (now : Int) (tools : List Tool)
    (permission : String → PyDict → Option String → Bool)
    (promptGranted checkContextMsg : Bool)
    (recent : RecentCalls) (msgs : List Message) (toolCalls : List PyDict) :
    (normalizedCallsOf now toolCalls = [] →
      processParallelToolCalls now tools permission promptGranted
        checkContextMsg recent msgs toolCalls
        = .error "ValueError: max_workers must be greater than 0")
    ∧ (∀ st, processParallelToolCalls now tools permission promptGranted
        checkContextMsg recent msgs toolCalls = .ok st →
        normalizedCallsOf now toolCalls ≠ []) := by
  constructor
  · intro h
    simp [processParallelToolCalls, h, protectedScan]
  · intro st hok hempty
    rw [show processParallelToolCalls now tools permission promptGranted
        checkContextMsg recent msgs toolCalls
        = .error "ValueError: max_workers must be greater than 0" from by
      simp [processParallelToolCalls, hempty, protectedScan]] at hok
    exact Except.noConfusion hok

/-- C10 counterexample: the two normalizers are not equivalent.  On a
nested `function.function.name` payload the legacy normalizer resolves
the tool name `ls` while the refactored one returns the empty name; on
the unparsable argument text `x=1` the legacy normalizer returns the
empty extraction `{}` while the refactored one returns
`{"raw_args": "x=1"}`. -/
theorem c10_normalizers_disagree :
    normalizeOld 0 nestedNameCall = .ok (.str "auto-id-0", .str "ls", .dict [])
    ∧ normalizeNew 0 nestedNameCall = .ok (.str "auto-id-0", .str "", .dict [])
    ∧ normalizeOld 0 unparsableArgsCall
        = .ok (.str "call-7", .str "file_read", .dict [])
    ∧ normalizeNew 0 unparsableArgsCall
        = .ok (.str "call-7", .str "file_read", .dict [("raw_args", .str "x=1")]) :=
  ⟨rfl, rfl, rfl, rfl⟩

/-- C10 (amended): the two normalizers agree (same callId for the same
timestamp, same toolName, same arguments) on every call whose
`function` payload is a dict carrying a truthy `name` and whose
arguments are absent, a native dict, or a string accepted by the JSON
parse directly or after single-quote replacement; they diverge only on
nested function payloads and on argument strings that fail every
parse. -/
theorem c10_normalizers_agree (now : Int) (tc : PyDict) (d : PyDict) (nv : PyVal)
    (hfc : dictGet tc "function" = some (.dict d))
    (hname : dictGet d "name" = some nv)
    (htruthy : nv.truthy = true)
    (hargs : ∀ v, dictGet d "arguments" = some v →
      (∃ dd, v = PyVal.dict dd)
      ∨ (∃ s, v = PyVal.str s ∧ ((jsonLoads s).isSome = true
          ∨ (jsonLoads (replaceChar s '\'' '\"')).isSome = true))) :
    normalizeOld now tc = normalizeNew now tc := by
  have hd : d ≠ [] := by
    intro h
    subst h
    simp [dictGet] at hname
  have htr : (PyVal.dict d).truthy = true := by
    simp [PyVal.truthy, List.isEmpty_iff, hd]
  have hcond : (!(PyVal.dict d).truthy && dictHas tc "name") = false := by
    rw [htr]
    rfl
  have hnest : nestedToolName d nv = .ok nv := by
    unfold nestedToolName
    simp [htruthy]
  have hraw : (∃ dd, (dictGet d "arguments").getD (.str "\x7b\x7d") = PyVal.dict dd)
      ∨ (∃ s, (dictGet d "arguments").getD (.str "\x7b\x7d") = PyVal.str s
          ∧ ((jsonLoads s).isSome = true
            ∨ (jsonLoads (replaceChar s '\'' '\"')).isSome = true)) := by
    rcases hg : dictGet d "arguments" with _ | v
    · exact Or.inr ⟨"\x7b\x7d", rfl, Or.inl rfl⟩
    · exact hargs v hg
  have hpa := parseArguments_congr ((dictGet d "arguments").getD (.str "\x7b\x7d"))
    kvExtract (fun s => PyVal.dict [("raw_args", PyVal.str s)]) hraw
  simp only [normalizeOld, normalizeNew, hfc, Option.getD_some, hcond,
    Bool.false_eq_true, if_false, hnest, hname, hpa]

/-- C10 witness: on a plain `file_read` call with JSON-string
arguments, the two normalizers return identical triples. -/
theorem c10_normalizers_agree_witness :
    (dictGet [("id", .str "w"),
        ("function", .dict [("name", .str "file_read"),
            ("arguments", .str "\x7b\"path\": \"/a\"\x7d")])] "function"
      = some (.dict [("name", .str "file_read"),
          ("arguments", .str "\x7b\"path\": \"/a\"\x7d")]))
    ∧ (PyVal.str "file_read").truthy = true
    ∧ normalizeOld 7 [("id", .str "w"),
        ("function", .dict [("name", .str "file_read"),
            ("arguments", .str "\x7b\"path\": \"/a\"\x7d")])]
      = normalizeNew 7 [("id", .str "w"),
        ("function", .dict [("name", .str "file_read"),
            ("arguments", .str "\x7b\"path\": \"/a\"\x7d")])] := by
  refine ⟨rfl, rfl, ?_⟩
  exact c10_normalizers_agree 7 _ _ (.str "file_read") rfl rfl rfl
    (by intro v hv
        cases hv
        exact Or.inr ⟨"\x7b\"path\": \"/a\"\x7d", rfl, Or.inl rfl⟩)

/-- C9 witness: a two-call batch in which both calls lack a tool name
normalizes to the empty list and makes the dispatcher raise. -/
theorem c9_parallel_raises_witness :
    (normalizedCallsOf 0 [[("id", .str "x")], [("function", .dict [])]] = [])
    ∧ (processParallelToolCalls 0 [] (fun _ _ _ => true) true true [] []
        [[("id", .str "x")], [("function", .dict [])]]
      = .error "ValueError: max_workers must be greater than 0") :=
  ⟨rfl,
    (c9_parallel_raises_on_empty_normalized_batch 0 [] (fun _ _ _ => true)
      true true [] [] [[("id", .str "x")], [("function", .dict [])]]).1 rfl⟩

end CodeAlly
